import Mathlib

/-!
Verification of the EventPulse ingestion processing pipeline.

Shallow embedding of the core pipeline of the `eventpulse` repository:
the claim/retry ledger state machine (`jobs._try_mark_processing`), the
event-intake dedup (`db.insert_ingestion_from_gcs_event`), schema
inference and drift (`schema.infer_schema`, `schema.schema_hash`,
`jobs._compute_drift`), the quality gate (`quality.validate_df`), the
curated loader (`loaders.postgres.upsert_curated`) and the orchestrator
(`jobs.process_ingestion`).

Modelling conventions:
- Database side effects become explicit state passing (the ledger row,
  the ingestions table, the curated table) or an ordered effect trace.
- `now_utc()` becomes an explicit integer timestamp argument.
- Python/pandas floats are modelled as `Rat`.
- `pd.NaN`/`None`/`NaT` are all modelled by the `Cell.null` cell.
-/

set_option maxRecDepth 4096

namespace EventPulse

/-! ## Ingestion ledger state machine (`jobs.py`) -/

/-- The `ingestions.status` lifecycle values used by the pipeline. -/
inductive Status
  | RECEIVED
  | PROCESSING
  | LOADED
  | FAILED_DRIFT
  | FAILED_QUALITY
  | FAILED_EXCEPTION
  | FAILED_MAX_ATTEMPTS
  deriving DecidableEq, Repr

/-- The claim-relevant columns of one `ingestions` ledger row. -/
structure LedgerRow where
  status : Status
  processingAttempts : Nat
  error : Option String
  processingStartedAt : Option Int
  processingHeartbeatAt : Option Int
  processedAt : Option Int
  deriving DecidableEq, Repr

/-- Result of `_try_mark_processing`: the strings
"claimed" / "skip" / "max_attempts". -/
inductive ClaimResult
  | claimed
  | skip
  | maxAttempts
  deriving DecidableEq, Repr

/-- The status set of the conditional `UPDATE`:
`status IN ('RECEIVED', 'FAILED_EXCEPTION')`. -/
def claimableStatus (s : Status) : Bool :=
  s = .RECEIVED || s = .FAILED_EXCEPTION

/-- `jobs._try_mark_processing`.  The two conditional `UPDATE ... RETURNING`
statements become two guarded updates of the row; `now_utc()` is the explicit
timestamp `t`, `settings.max_processing_attempts` the explicit argument `m`
(the function applies `max(1, ...)` itself, as the source does). -/
def tryMarkProcessing (m : Int) (t : Int) (row : LedgerRow) :
    LedgerRow × ClaimResult :=
  if claimableStatus row.status ∧ (row.processingAttempts : Int) < max 1 m then
    ({ row with
        status := .PROCESSING
        error := none
        processedAt := none
        processingStartedAt := some t
        processingHeartbeatAt := some t
        processingAttempts := row.processingAttempts + 1 }, .claimed)
  else if claimableStatus row.status ∧ (row.processingAttempts : Int) ≥ max 1 m then
    ({ row with
        status := .FAILED_MAX_ATTEMPTS
        error := some "max_processing_attempts_exceeded"
        processedAt := some t
        processingStartedAt := none
        processingHeartbeatAt := none }, .maxAttempts)
  else (row, .skip)

/-- A sequence of duplicate `claim` invocations against the same ledger row,
each seeing the row state left by the previous one. -/
def runClaims (m : Int) (ts : List Int) (row : LedgerRow) : List ClaimResult :=
  match ts with
  | [] => []
  | t :: rest =>
      (tryMarkProcessing m t row).2 :: runClaims m rest (tryMarkProcessing m t row).1

/-- Number of invocations in a run that returned "claimed". -/
def countClaimed (l : List ClaimResult) : Nat :=
  l.countP (· = .claimed)

/-- The row produced by a successful claim. -/
def claimedRow (t : Int) (row : LedgerRow) : LedgerRow :=
  { row with
      status := .PROCESSING
      error := none
      processedAt := none
      processingStartedAt := some t
      processingHeartbeatAt := some t
      processingAttempts := row.processingAttempts + 1 }

/-- The row produced by the attempts-exhausted safety valve. -/
def exhaustedRow (t : Int) (row : LedgerRow) : LedgerRow :=
  { row with
      status := .FAILED_MAX_ATTEMPTS
      error := some "max_processing_attempts_exceeded"
      processedAt := some t
      processingStartedAt := none
      processingHeartbeatAt := none }

theorem tryMarkProcessing_eq_claimed {m t : Int} {row : LedgerRow}
    (h1 : claimableStatus row.status = true)
    (h2 : (row.processingAttempts : Int) < max 1 m) :
    tryMarkProcessing m t row = (claimedRow t row, .claimed) := by
  unfold tryMarkProcessing
  rw [if_pos ⟨h1, h2⟩]
  rfl

theorem tryMarkProcessing_eq_max {m t : Int} {row : LedgerRow}
    (h1 : claimableStatus row.status = true)
    (h2 : ¬ (row.processingAttempts : Int) < max 1 m) :
    tryMarkProcessing m t row = (exhaustedRow t row, .maxAttempts) := by
  unfold tryMarkProcessing
  rw [if_neg (by rintro ⟨_, hlt⟩; exact h2 hlt), if_pos ⟨h1, le_of_not_lt h2⟩]
  rfl

theorem tryMarkProcessing_not_claimable {m t : Int} {row : LedgerRow}
    (h : claimableStatus row.status = false) :
    tryMarkProcessing m t row = (row, .skip) := by
  unfold tryMarkProcessing
  rw [if_neg (by rintro ⟨hc, _⟩; simp [h] at hc),
    if_neg (by rintro ⟨hc, _⟩; simp [h] at hc)]

theorem runClaims_not_claimable {m : Int} {ts : List Int} {row : LedgerRow}
    (h : claimableStatus row.status = false) :
    countClaimed (runClaims m ts row) = 0 := by
  induction ts with
  | nil => simp [runClaims, countClaimed]
  | cons t rest ih =>
      simp only [runClaims, countClaimed, List.countP_cons,
        tryMarkProcessing_not_claimable h] at *
      simp [ih]

theorem countClaimed_le_one (m : Int) (ts : List Int) (row : LedgerRow) :
    countClaimed (runClaims m ts row) ≤ 1 := by
  induction ts generalizing row with
  | nil => simp [runClaims, countClaimed]
  | cons t rest ih =>
      rcases hc : claimableStatus row.status with _ | _
      · simp only [runClaims, countClaimed, List.countP_cons,
          tryMarkProcessing_not_claimable hc]
        have := ih row
        simp only [countClaimed] at this
        simpa using this
      · by_cases hlt : (row.processingAttempts : Int) < max 1 m
        · simp only [runClaims, countClaimed, List.countP_cons,
            tryMarkProcessing_eq_claimed hc hlt]
          have hrest : countClaimed (runClaims m rest (claimedRow t row)) = 0 :=
            runClaims_not_claimable (by simp [claimableStatus, claimedRow])
          simp only [countClaimed] at hrest
          simp [hrest]
        · simp only [runClaims, countClaimed, List.countP_cons,
            tryMarkProcessing_eq_max hc hlt]
          have hrest : countClaimed (runClaims m rest (exhaustedRow t row)) = 0 :=
            runClaims_not_claimable (by simp [claimableStatus, exhaustedRow])
          simp only [countClaimed] at hrest
          simp [hrest]

/-- C1: `claim(id)` returns "claimed" exactly from a `RECEIVED` or
`FAILED_EXCEPTION` row with attempts below the cap; on success the row moves
to `PROCESSING` with start/heartbeat stamped and attempts incremented by one;
a claimable row at or above the cap is moved to `FAILED_MAX_ATTEMPTS` with
result "max_attempts"; every other row is left unchanged with result "skip";
and any sequence of duplicate invocations yields at most one "claimed". -/
theorem claim_C1 (m t : Int) (row : LedgerRow) (ts : List Int) :
    ((tryMarkProcessing m t row).2 = .claimed ↔
      (row.status = .RECEIVED ∨ row.status = .FAILED_EXCEPTION) ∧
        (row.processingAttempts : Int) < max 1 m)
    ∧ ((tryMarkProcessing m t row).2 = .claimed →
        (tryMarkProcessing m t row).1 = claimedRow t row)
    ∧ ((tryMarkProcessing m t row).2 = .maxAttempts ↔
        (row.status = .RECEIVED ∨ row.status = .FAILED_EXCEPTION) ∧
          (row.processingAttempts : Int) ≥ max 1 m)
    ∧ ((tryMarkProcessing m t row).2 = .maxAttempts →
        (tryMarkProcessing m t row).1.status = .FAILED_MAX_ATTEMPTS)
    ∧ ((tryMarkProcessing m t row).2 = .skip → (tryMarkProcessing m t row).1 = row)
    ∧ countClaimed (runClaims m ts row) ≤ 1 := by
  have hclaimable : claimableStatus row.status = true ↔
      (row.status = .RECEIVED ∨ row.status = .FAILED_EXCEPTION) := by
    simp [claimableStatus]
  rcases hc : claimableStatus row.status with _ | _
  · have heq := tryMarkProcessing_not_claimable (m := m) (t := t) hc
    refine ⟨?_, ?_, ?_, ?_, ?_, countClaimed_le_one m ts row⟩ <;>
      rw [heq] <;> simp_all
  · by_cases hlt : (row.processingAttempts : Int) < max 1 m
    · have heq := tryMarkProcessing_eq_claimed (m := m) (t := t) hc hlt
      refine ⟨?_, ?_, ?_, ?_, ?_, countClaimed_le_one m ts row⟩ <;>
        rw [heq] <;> simp_all [claimedRow]
      omega
    · have heq := tryMarkProcessing_eq_max (m := m) (t := t) hc hlt
      refine ⟨?_, ?_, ?_, ?_, ?_, countClaimed_le_one m ts row⟩ <;>
        rw [heq] <;> simp_all [exhaustedRow]
      omega

/-- C1 witness: a fresh `RECEIVED` row with the default cap of 5 attempts is
claimed, and three duplicate invocations in a row produce at most one
"claimed". -/
theorem claim_C1_witness :
    (tryMarkProcessing 5 0 ⟨.RECEIVED, 0, none, none, none, none⟩).2 = .claimed ∧
      countClaimed (runClaims 5 [0, 1, 2] ⟨.RECEIVED, 0, none, none, none, none⟩) ≤ 1 :=
  ⟨(claim_C1 5 0 ⟨.RECEIVED, 0, none, none, none, none⟩ [0, 1, 2]).1.mpr
      ⟨Or.inl rfl, by decide⟩,
    (claim_C1 5 0 ⟨.RECEIVED, 0, none, none, none, none⟩ [0, 1, 2]).2.2.2.2.2⟩

/-! ## Event intake dedup (`db.insert_ingestion_from_gcs_event`) -/

/-- The dedup-relevant columns of one row of the `ingestions` table. -/
structure IngRow where
  id : String
  dataset : String
  source : Option String
  filename : String
  fileExt : String
  sha256 : String
  rawPath : String
  rawGeneration : Option Int
  receivedAt : Int
  status : Status
  replayOf : Option String
  deriving DecidableEq, Repr

/-- The partial unique index behind `ON CONFLICT (raw_path, raw_generation)
WHERE raw_generation IS NOT NULL AND replay_of IS NULL`, applied to an
incoming event key (whose generation is always non-null and whose
`replay_of` is `NULL`). -/
def dedupMatches (rawPath : String) (rawGeneration : Int) (r : IngRow) : Bool :=
  r.rawPath = rawPath && r.rawGeneration = some rawGeneration && r.replayOf = none

/-- The `RECEIVED` row the `INSERT` statement writes for a finalize event. -/
def gcsEventRow (newId dataset : String) (source : Option String)
    (filename fileExt sha256 rawPath : String) (rawGeneration : Int) (t : Int) :
    IngRow :=
  ⟨newId, dataset, source, filename, fileExt, sha256, rawPath,
    some rawGeneration, t, .RECEIVED, none⟩

/-- `db.insert_ingestion_from_gcs_event`.  The ingestions table becomes an
explicit list; the freshly generated `uuid4` becomes the argument `newId` and
`now_utc()` the timestamp `t`.  A conflict on the partial unique index leaves
the table unchanged and falls back to the `SELECT ... LIMIT 1` of the
existing row. -/
def insertIngestionFromGcsEvent
    (tbl : List IngRow) (newId dataset : String) (source : Option String)
    (filename fileExt sha256 rawPath : String) (rawGeneration : Int) (t : Int) :
    List IngRow × String × Bool :=
  match tbl.find? (dedupMatches rawPath rawGeneration) with
  | some existing => (tbl, existing.id, false)
  | none =>
      (tbl ++ [gcsEventRow newId dataset source filename fileExt sha256
        rawPath rawGeneration t], newId, true)

/-- C3: registering an ingestion from a finalize event is deduplicated on the
(raw location, raw generation) key: on a table with no row for the key, the
event inserts a single new `RECEIVED` ingestion and returns `created=true`;
a later delivery of the same key against the resulting table inserts nothing
and returns the id of that existing ingestion with `created=false`. -/
theorem claim_C3 (tbl : List IngRow) (newId₁ newId₂ dataset : String)
    (source : Option String)
    (filename fileExt sha256 rawPath : String) (rawGeneration : Int)
    (t₁ t₂ : Int)
    (hfresh : tbl.find? (dedupMatches rawPath rawGeneration) = none) :
    insertIngestionFromGcsEvent tbl newId₁ dataset source filename fileExt
        sha256 rawPath rawGeneration t₁ =
      (tbl ++ [gcsEventRow newId₁ dataset source filename fileExt sha256
        rawPath rawGeneration t₁], newId₁, true)
    ∧ (gcsEventRow newId₁ dataset source filename fileExt sha256 rawPath
        rawGeneration t₁).status = .RECEIVED
    ∧ insertIngestionFromGcsEvent
        (tbl ++ [gcsEventRow newId₁ dataset source filename fileExt sha256
          rawPath rawGeneration t₁])
        newId₂ dataset source filename fileExt sha256 rawPath rawGeneration t₂ =
      (tbl ++ [gcsEventRow newId₁ dataset source filename fileExt sha256
        rawPath rawGeneration t₁], newId₁, false) := by
  have hmatch : dedupMatches rawPath rawGeneration
      (gcsEventRow newId₁ dataset source filename fileExt sha256 rawPath
        rawGeneration t₁) = true := by
    simp [dedupMatches, gcsEventRow]
  refine ⟨?_, rfl, ?_⟩
  · simp [insertIngestionFromGcsEvent, hfresh]
  · have hfind : (tbl ++ [gcsEventRow newId₁ dataset source filename fileExt
        sha256 rawPath rawGeneration t₁]).find?
          (dedupMatches rawPath rawGeneration) =
        some (gcsEventRow newId₁ dataset source filename fileExt sha256
          rawPath rawGeneration t₁) := by
      rw [List.find?_append, hfresh]
      simp [hmatch]
    unfold insertIngestionFromGcsEvent
    rw [hfind]
    rfl

/-- C3 witness: delivering the same (path, generation) event twice to an
empty ingestions table creates exactly one row and the second delivery
returns the first ingestion's id with `created=false`. -/
theorem claim_C3_witness :
    insertIngestionFromGcsEvent [] "id1" "parcels" none "a.csv" ".csv" "h"
        "raw/parcels/a.csv" 7 0 =
      ([gcsEventRow "id1" "parcels" none "a.csv" ".csv" "h"
        "raw/parcels/a.csv" 7 0], "id1", true)
    ∧ (gcsEventRow "id1" "parcels" none "a.csv" ".csv" "h"
        "raw/parcels/a.csv" 7 0).status = .RECEIVED
    ∧ insertIngestionFromGcsEvent
        ([] ++ [gcsEventRow "id1" "parcels" none "a.csv" ".csv" "h"
          "raw/parcels/a.csv" 7 0]) "id2" "parcels" none "a.csv" ".csv" "h"
        "raw/parcels/a.csv" 7 1 =
      ([gcsEventRow "id1" "parcels" none "a.csv" ".csv" "h"
        "raw/parcels/a.csv" 7 0], "id1", false) := by
  have h := claim_C3 [] "id1" "id2" "parcels" none "a.csv" ".csv" "h"
    "raw/parcels/a.csv" 7 0 1 rfl
  simpa using h

/-! ## Tabular batches and schema inference (`schema.py`) -/

/-- The pandas dtypes the pipeline distinguishes
(`is_bool_dtype` / `is_integer_dtype` / `is_float_dtype` /
`is_datetime64_any_dtype`, everything else being object). -/
inductive Dtype
  | boolDt
  | int64
  | float64
  | datetime64
  | objectDt
  deriving DecidableEq, Repr

/-- One cell of a tabular batch.  `null` models `None`/`NaN`/`NaT`;
`dt` holds a UTC timestamp. -/
inductive Cell
  | null
  | b (x : Bool)
  | i (x : Int)
  | f (x : Rat)
  | s (x : String)
  | dt (x : Int)
  deriving DecidableEq, Repr

/-- One pandas `Series`: its column name, its dtype, and its cells. -/
structure Col where
  name : String
  dtype : Dtype
  cells : List Cell
  deriving DecidableEq, Repr

/-- A pandas `DataFrame`: an ordered list of named columns. -/
abbrev DataFrame := List Col

/-- `str(series.dtype)`. -/
def dtypeName : Dtype → String
  | .boolDt => "bool"
  | .int64 => "int64"
  | .float64 => "float64"
  | .datetime64 => "datetime64[ns, UTC]"
  | .objectDt => "object"

/-- `schema._logical_type`: the dtype-to-logical-type mapping. -/
def logicalType : Dtype → String
  | .boolDt => "boolean"
  | .int64 => "integer"
  | .float64 => "number"
  | .datetime64 => "datetime"
  | .objectDt => "string"

/-- One entry of the schema representation built by `infer_schema`. -/
structure SchemaCol where
  name : String
  dtype : String
  logical : String
  deriving DecidableEq, Repr

/-- The schema dict returned by `infer_schema`. -/
structure Schema where
  columns : List SchemaCol
  columnCount : Nat
  deriving DecidableEq, Repr

/-- The key order used by `sorted(cols, key=lambda x: x["name"])`. -/
def schemaColLe (a b : SchemaCol) : Prop := a.name ≤ b.name

instance : DecidableRel schemaColLe := fun a b => by
  unfold schemaColLe; infer_instance

instance : IsTotal SchemaCol schemaColLe :=
  ⟨fun a b => le_total a.name b.name⟩

instance : IsTrans SchemaCol schemaColLe :=
  ⟨fun _ _ _ h1 h2 => le_trans h1 h2⟩

/-- `schema.infer_schema`: per-column (name, dtype, logical type) entries,
sorted by column name (Python's `sorted` is a stable sort; insertion sort is
the stable sort used here). -/
def inferSchema (df : DataFrame) : Schema :=
  let cols := df.map (fun c => SchemaCol.mk c.name (dtypeName c.dtype) (logicalType c.dtype))
  let colsSorted := List.insertionSort schemaColLe cols
  ⟨colsSorted, colsSorted.length⟩

/-- `schema.schema_hash`: SHA-256 over the concatenation of each column's
name and logical type, in stored order.  The digest is modelled by the exact
byte stream fed into the hash: equal streams yield equal hex digests, and
every property proved here depends only on that stream. -/
def schemaHash (schema : Schema) : String :=
  schema.columns.foldl (fun acc col => acc ++ col.name ++ col.logical) ""

/-- The (name, logical type) pair of a batch column, as observed by
`infer_schema`. -/
def colPair (c : Col) : String × String := (c.name, logicalType c.dtype)

/-- The (name, logical type) projection of a schema entry. -/
def schemaColPair (c : SchemaCol) : String × String := (c.name, c.logical)

theorem schemaHash_eq_of_pairs_eq (l₁ l₂ : List SchemaCol)
    (h : l₁.map schemaColPair = l₂.map schemaColPair) :
    schemaHash ⟨l₁, l₁.length⟩ = schemaHash ⟨l₂, l₂.length⟩ := by
  suffices hgen : ∀ (l₁ l₂ : List SchemaCol) (acc : String),
      l₁.map schemaColPair = l₂.map schemaColPair →
      l₁.foldl (fun acc col => acc ++ col.name ++ col.logical) acc =
        l₂.foldl (fun acc col => acc ++ col.name ++ col.logical) acc by
    exact hgen l₁ l₂ "" h
  intro l₁
  induction l₁ with
  | nil =>
      intro l₂ acc h
      cases l₂ with
      | nil => rfl
      | cons b t => simp at h
  | cons a t ih =>
      intro l₂ acc h
      cases l₂ with
      | nil => simp at h
      | cons b t₂ =>
          simp only [List.map_cons, List.cons.injEq] at h
          have hname : a.name = b.name := congrArg Prod.fst h.1
          have hlog : a.logical = b.logical := congrArg Prod.snd h.1
          simp only [List.foldl_cons, hname, hlog]
          exact ih t₂ _ h.2

/-- The (name, logical type) pairs of the sorted schema entries produced by
`infer_schema`. -/
def inferPairs (df : DataFrame) : List (String × String) :=
  (List.insertionSort schemaColLe
    (df.map (fun c => SchemaCol.mk c.name (dtypeName c.dtype)
      (logicalType c.dtype)))).map schemaColPair

theorem inferPairs_perm (df : DataFrame) :
    (inferPairs df).Perm (df.map colPair) := by
  have hpermSort := (List.perm_insertionSort schemaColLe
    (df.map (fun c => SchemaCol.mk c.name (dtypeName c.dtype)
      (logicalType c.dtype)))).map schemaColPair
  have hproj : ((df.map (fun c => SchemaCol.mk c.name (dtypeName c.dtype)
      (logicalType c.dtype))).map schemaColPair) = df.map colPair := by
    simp [schemaColPair, colPair, Function.comp]
  rw [inferPairs, ← hproj]
  exact hpermSort

theorem inferPairs_sorted_le (df : DataFrame) :
    (inferPairs df).Pairwise (fun a b : String × String => a.1 ≤ b.1) := by
  have hs := List.sorted_insertionSort schemaColLe
    (df.map (fun c => SchemaCol.mk c.name (dtypeName c.dtype) (logicalType c.dtype)))
  exact List.Pairwise.map (R := schemaColLe)
    (S := fun a b : String × String => a.1 ≤ b.1) schemaColPair
    (fun {a b} h => h) hs

theorem inferPairs_sorted_lt (df : DataFrame)
    (hn : (df.map Col.name).Nodup) :
    (inferPairs df).Pairwise (fun a b : String × String => a.1 < b.1) := by
  have hfst : (df.map colPair).map Prod.fst = df.map Col.name := by
    simp [colPair, Function.comp]
  have hndfst : ((inferPairs df).map Prod.fst).Nodup := by
    refine (((inferPairs_perm df).map Prod.fst).nodup_iff).mpr ?_
    rw [hfst]
    exact hn
  have hne : (inferPairs df).Pairwise
      (fun a b : String × String => a.1 ≠ b.1) :=
    List.pairwise_map.mp hndfst
  have hle := inferPairs_sorted_le df
  exact (hle.and hne).imp (fun h => lt_of_le_of_ne h.1 h.2)

/-- C6: two batches whose columns carry identical sets of
(name, inferred logical type) pairs — in any column order, with any cell
contents and hence any row order — produce the same schema fingerprint. -/
theorem claim_C6 (df₁ df₂ : DataFrame)
    (hnodup : (df₁.map Col.name).Nodup)
    (hperm : (df₁.map colPair).Perm (df₂.map colPair)) :
    schemaHash (inferSchema df₁) = schemaHash (inferSchema df₂) := by
  classical
  have hnodup₂ : (df₂.map Col.name).Nodup := by
    have h1 : df₁.map Col.name = (df₁.map colPair).map Prod.fst := by
      simp [colPair, Function.comp]
    have h2 : df₂.map Col.name = (df₂.map colPair).map Prod.fst := by
      simp [colPair, Function.comp]
    rw [h2]
    exact ((hperm.map Prod.fst).nodup_iff).mp (by rw [← h1]; exact hnodup)
  have hperm' : (inferPairs df₁).Perm (inferPairs df₂) :=
    (inferPairs_perm df₁).trans (hperm.trans (inferPairs_perm df₂).symm)
  have : IsAntisymm (String × String) (fun a b => a.1 < b.1) :=
    ⟨fun a b h1 h2 => absurd (lt_trans h1 h2) (lt_irrefl _)⟩
  have heq := List.eq_of_perm_of_sorted hperm'
    (inferPairs_sorted_lt df₁ hnodup) (inferPairs_sorted_lt df₂ hnodup₂)
  unfold inferSchema
  exact schemaHash_eq_of_pairs_eq _ _ heq

/-- C6 witness: swapping two columns (and using different cell contents, so
row order also differs) leaves the fingerprint unchanged. -/
theorem claim_C6_witness :
    schemaHash (inferSchema [⟨"b", .objectDt, [.s "x", .s "y"]⟩,
        ⟨"a", .int64, [.i 1, .i 2]⟩]) =
      schemaHash (inferSchema [⟨"a", .int64, [.i 9, .i 8]⟩,
        ⟨"b", .objectDt, [.s "y", .s "x"]⟩]) :=
  claim_C6 _ _ (by decide) (List.Perm.swap _ _ _)

/-! ## Schema drift (`jobs._compute_drift`) -/

/-- Python dict insertion: overwrite the value in place if the key exists,
otherwise append the new binding. -/
def dictInsert (k v : String) (d : List (String × String)) :
    List (String × String) :=
  if d.any (fun p => p.1 = k) then
    d.map (fun p => if p.1 = k then (k, v) else p)
  else d ++ [(k, v)]

/-- A Python dict comprehension over a list of (key, value) pairs. -/
def pyDict (l : List (String × String)) : List (String × String) :=
  l.foldl (fun d p => dictInsert p.1 p.2 d) []

/-- `d[k]` / `d.get(k)`. -/
def dictGet? (d : List (String × String)) (k : String) : Option String :=
  (d.find? (fun p => p.1 = k)).map Prod.snd

/-- `sorted(...)` over a list of strings. -/
def pySortStrings (l : List String) : List String :=
  List.insertionSort (· ≤ ·) l

/-- The drift dict returned by `_compute_drift`.  The `initial` case of the
source returns a dict without added/removed/changed keys; it is modelled with
those fields empty.  `changed` is the sorted key list the source calls
`changed` (from which its `changed_type` dict is derived). -/
structure DriftResult where
  rtype : String
  breaking : Bool
  added : List String
  removed : List String
  changed : List String
  deriving DecidableEq, Repr

/-- `jobs._compute_drift`. -/
def computeDrift (previous : Option Schema) (current : Schema) : DriftResult :=
  match previous with
  | none => ⟨"initial", false, [], [], []⟩
  | some prev =>
      let prevCols := pyDict (prev.columns.map (fun c => (c.name, c.logical)))
      let curCols := pyDict (current.columns.map (fun c => (c.name, c.logical)))
      let added := pySortStrings ((curCols.map Prod.fst).filter
        (fun c => decide (c ∉ prevCols.map Prod.fst)))
      let removed := pySortStrings ((prevCols.map Prod.fst).filter
        (fun c => decide (c ∉ curCols.map Prod.fst)))
      let changed := pySortStrings ((curCols.map Prod.fst).filter
        (fun c => decide (c ∈ prevCols.map Prod.fst) &&
          decide (dictGet? curCols c ≠ dictGet? prevCols c)))
      let breaking := !removed.isEmpty || !changed.isEmpty
      ⟨if !added.isEmpty || !removed.isEmpty || !changed.isEmpty
          then "drift" else "none",
        breaking, added, removed, changed⟩

theorem dictGet?_isSome_of_mem_keys {d : List (String × String)} {k : String}
    (h : k ∈ d.map Prod.fst) : ∃ v, dictGet? d k = some v := by
  induction d with
  | nil => simp at h
  | cons p rest ih =>
      by_cases hk : p.1 = k
      · exact ⟨p.2, by simp [dictGet?, hk]⟩
      · have : k ∈ rest.map Prod.fst := by
          rcases List.mem_cons.mp h with h1 | h1
          · exact absurd h1.symm hk
          · exact h1
        obtain ⟨v, hv⟩ := ih this
        exact ⟨v, by
          simp only [dictGet?, List.find?] at hv ⊢
          simp [hk, hv]⟩

theorem mem_keys_of_dictGet?_isSome {d : List (String × String)} {k : String}
    {v : String} (h : dictGet? d k = some v) : k ∈ d.map Prod.fst := by
  induction d with
  | nil => simp [dictGet?] at h
  | cons p rest ih =>
      by_cases hk : p.1 = k
      · simp [hk]
      · have hfind : List.find? (fun q => decide (q.1 = k)) (p :: rest) =
            List.find? (fun q => decide (q.1 = k)) rest :=
          List.find?_cons_of_neg _ (by simpa using hk)
        unfold dictGet? at h
        rw [hfind] at h
        right
        exact ih h

theorem pySortStrings_isEmpty (l : List String) :
    (pySortStrings l).isEmpty = l.isEmpty := by
  have hp := List.perm_insertionSort (α := String) (· ≤ ·) l
  cases l with
  | nil => simp [pySortStrings, List.insertionSort]
  | cons a t =>
      have : pySortStrings (a :: t) ≠ [] := by
        intro hnil
        have := hp.length_eq
        rw [pySortStrings] at hnil
        rw [hnil] at this
        simp at this
      cases hres : pySortStrings (a :: t) with
      | nil => exact absurd hres this
      | cons b t₂ => simp

/-- C5: `_compute_drift` reports breaking drift exactly when some column of
the previous snapshot is gone from the current one, or some column kept its
name but changed its final logical type; added columns alone are never
breaking; and with no previous snapshot the result is `initial` and not
breaking. -/
theorem claim_C5 (prev cur : Schema) :
    computeDrift none cur = ⟨"initial", false, [], [], []⟩
    ∧ ((computeDrift (some prev) cur).breaking = true ↔
      (∃ n t, dictGet? (pyDict (prev.columns.map (fun c => (c.name, c.logical)))) n = some t ∧
        dictGet? (pyDict (cur.columns.map (fun c => (c.name, c.logical)))) n = none)
      ∨ (∃ n t₁ t₂,
          dictGet? (pyDict (prev.columns.map (fun c => (c.name, c.logical)))) n = some t₁ ∧
          dictGet? (pyDict (cur.columns.map (fun c => (c.name, c.logical)))) n = some t₂ ∧
          t₁ ≠ t₂)) := by
  classical
  refine ⟨rfl, ?_⟩
  set prevD := pyDict (prev.columns.map (fun c => (c.name, c.logical))) with hprevD
  set curD := pyDict (cur.columns.map (fun c => (c.name, c.logical))) with hcurD
  have hbreaking : (computeDrift (some prev) cur).breaking =
      (!((pySortStrings ((prevD.map Prod.fst).filter
          (fun c => decide (c ∉ curD.map Prod.fst)))).isEmpty) ||
        !((pySortStrings ((curD.map Prod.fst).filter
          (fun c => decide (c ∈ prevD.map Prod.fst) &&
            decide (dictGet? curD c ≠ dictGet? prevD c)))).isEmpty)) := rfl
  rw [hbreaking]
  simp only [pySortStrings_isEmpty, Bool.or_eq_true, Bool.not_eq_true',
    List.isEmpty_eq_false_iff_exists_mem, List.mem_filter]
  constructor
  · rintro (⟨n, hn, hfil⟩ | ⟨n, hn, hfil⟩)
    · left
      obtain ⟨t, ht⟩ := dictGet?_isSome_of_mem_keys hn
      refine ⟨n, t, ht, ?_⟩
      have hnot : n ∉ curD.map Prod.fst := of_decide_eq_true hfil
      cases hcur : dictGet? curD n with
      | none => rfl
      | some v => exact absurd (mem_keys_of_dictGet?_isSome hcur) hnot
    · right
      simp only [Bool.and_eq_true, decide_eq_true_eq] at hfil
      obtain ⟨t₂, ht₂⟩ := dictGet?_isSome_of_mem_keys hn
      obtain ⟨t₁, ht₁⟩ := dictGet?_isSome_of_mem_keys hfil.1
      refine ⟨n, t₁, t₂, ht₁, ht₂, ?_⟩
      intro hcontra
      exact hfil.2 (by rw [ht₁, ht₂, hcontra])
  · rintro (⟨n, t, hprev, hcur⟩ | ⟨n, t₁, t₂, hprev, hcur, hne⟩)
    · left
      refine ⟨n, mem_keys_of_dictGet?_isSome hprev, ?_⟩
      simp only [decide_eq_true_eq]
      intro hmem
      obtain ⟨v, hv⟩ := dictGet?_isSome_of_mem_keys hmem
      rw [hv] at hcur
      exact Option.noConfusion hcur
    · right
      refine ⟨n, mem_keys_of_dictGet?_isSome hcur, ?_⟩
      simp only [Bool.and_eq_true, decide_eq_true_eq]
      exact ⟨mem_keys_of_dictGet?_isSome hprev, by
        rw [hprev, hcur]
        intro hcontra
        exact hne (Option.some.inj hcontra).symm⟩

/-- C5 witness: dropping column "b" (previous schema {a, b}, current {a})
is breaking, through the removed-column arm of the characterization. -/
theorem claim_C5_witness :
    computeDrift none ⟨[⟨"a", "int64", "integer"⟩], 1⟩ =
      ⟨"initial", false, [], [], []⟩
    ∧ (computeDrift (some ⟨[⟨"a", "int64", "integer"⟩,
        ⟨"b", "object", "string"⟩], 2⟩)
        ⟨[⟨"a", "int64", "integer"⟩], 1⟩).breaking = true := by
  have h := claim_C5 ⟨[⟨"a", "int64", "integer"⟩, ⟨"b", "object", "string"⟩], 2⟩
    ⟨[⟨"a", "int64", "integer"⟩], 1⟩
  exact ⟨h.1, h.2.mpr (Or.inl ⟨"b", "string", by decide, by decide⟩)⟩

/-! ## Quality gate (`quality.py`, `contracts.py`) -/

/-- One column spec of a contract: `{type, required, unique, min, max}`.
`ctype` is `spec.get("type") or ""`; `min?`/`max?` hold `float(spec[...])`
when declared. -/
structure ColSpec where
  ctype : String
  required : Bool
  unique : Bool
  min? : Option Rat
  max? : Option Rat
  deriving DecidableEq, Repr

/-- `contracts.DatasetContract` (the fields `validate_df` and the loaders
read).  `columns` is the ordered `columns` dict;
`maxNullFraction` is `contract.quality["max_null_fraction"]`. -/
structure DatasetContract where
  dataset : String
  primaryKey : Option String
  columns : List (String × ColSpec)
  maxNullFraction : List (String × Rat)
  driftPolicy : Option String
  deriving DecidableEq, Repr

/-- `df.columns`. -/
def dfNames (df : DataFrame) : List String := df.map Col.name

/-- `df[col]`: the first column carrying the name. -/
def dfGet? (df : DataFrame) (name : String) : Option Col :=
  df.find? (fun c => c.name = name)

/-- `df[col] = series`: replace every column carrying the name. -/
def dfSet (df : DataFrame) (name : String) (newCol : Col) : DataFrame :=
  df.map (fun c => if c.name = name then newCol else c)

/-- `len(df)` (the row count). -/
def dfRowCount (df : DataFrame) : Nat :=
  match df with
  | [] => 0
  | c :: _ => c.cells.length

/-- `series.dropna()`. -/
def dropna (cells : List Cell) : List Cell :=
  cells.filter (fun x => !(x == Cell.null))

/-- `series.isna().mean()`: the fraction of null cells. -/
def naFraction (cells : List Cell) : Rat :=
  ((cells.countP (fun x => x == Cell.null) : Nat) : Rat) / ((cells.length : Nat) : Rat)

/-- Digit-string to number, `none` on empty or non-digit input. -/
def parseNatDigits (cs : List Char) : Option Nat :=
  if cs.isEmpty || !cs.all Char.isDigit then none
  else some (cs.foldl (fun n c => n * 10 + (c.toNat - 48)) 0)

/-- `float(s)` on decimal notation: optional sign, digits, optional
fraction.  Scientific notation and `inf`/`nan` tokens are not modelled
(they parse as `none`, which coincides with `NaN` counting as missing). -/
def parseFloatChars (cs : List Char) : Option Rat :=
  let intPart := cs.takeWhile Char.isDigit
  let rest := cs.dropWhile Char.isDigit
  match rest with
  | [] =>
      if intPart.isEmpty then none
      else (parseNatDigits intPart).map (fun n => (n : Rat))
  | '.' :: rest₂ =>
      let fracPart := rest₂.takeWhile Char.isDigit
      let rest₃ := rest₂.dropWhile Char.isDigit
      if !rest₃.isEmpty then none
      else if intPart.isEmpty && fracPart.isEmpty then none
      else
        match parseNatDigits intPart, parseNatDigits fracPart with
        | some n, some f =>
            some ((n : Rat) + (f : Rat) / ((10 ^ fracPart.length : Nat) : Rat))
        | some n, none => some ((n : Rat))
        | none, some f => some ((f : Rat) / ((10 ^ fracPart.length : Nat) : Rat))
        | none, none => none
  | _ => none

/-- `float(s)` with sign handling and whitespace stripping. -/
def parseFloat? (s : String) : Option Rat :=
  match s.trim.toList with
  | '-' :: rest => (parseFloatChars rest).map (fun q => -q)
  | '+' :: rest => parseFloatChars rest
  | cs => parseFloatChars cs

/-- `pd.to_numeric(..., errors="coerce")` on one cell.  Booleans convert to
0/1; unparseable strings, nulls and datetime objects coerce to `NaN`
(modelled `none`). -/
def toNumericCell : Cell → Option Rat
  | .null => none
  | .b x => some (if x then 1 else 0)
  | .i x => some ((x : Int) : Rat)
  | .f x => some x
  | .s x => parseFloat? x
  | .dt _ => none

/-- `pd.to_numeric(series, errors="coerce")`.  On a datetime64 series the
call raises (caught by the `except` of `_looks_like_int` /
`_looks_like_number`), modelled as `none`. -/
def toNumericSeries (c : Col) : Option (List (Option Rat)) :=
  if c.dtype = .datetime64 then none else some (c.cells.map toNumericCell)

/-- Python `q % 1.0`: the fractional part, in `[0, 1)` also for negatives. -/
def pyMod1 (q : Rat) : Rat := q - (q.floor : Int)

/-- `quality._looks_like_number`. -/
def looksLikeNumber (c : Col) : Bool :=
  match toNumericSeries c with
  | none => false
  | some numeric =>
      decide ((((numeric.countP (fun x => x.isSome)) : Nat) : Rat) /
        ((numeric.length : Nat) : Rat) > (8 : Rat) / 10)

/-- `quality._looks_like_int`: more than 80% of the series parses to a
number (nulls counting against the fraction) and every parsed value has
fractional part below `1e-9`. -/
def looksLikeInt (c : Col) : Bool :=
  match toNumericSeries c with
  | none => false
  | some numeric =>
      if (((numeric.countP (fun x => x.isSome)) : Nat) : Rat) /
          ((numeric.length : Nat) : Rat) ≤ (8 : Rat) / 10 then false
      else decide (∀ q ∈ numeric.filterMap id, pyMod1 q < 1 / 1000000000)

/-- `str(x)` of one non-null cell, as far as the boolean token test needs
it: only membership in {true,false,1,0,yes,no,y,n} (after lower/strip) is
ever consumed, so floats/timestamps only need representations outside that
set. -/
def pyStrCell : Cell → String
  | .null => "None"
  | .b x => if x then "True" else "False"
  | .i x => toString x
  | .f x => toString x.num ++ "." ++ toString x.den
  | .s x => x
  | .dt x => "timestamp:" ++ toString x

/-- `quality._looks_like_bool`. -/
def looksLikeBool (c : Col) : Bool :=
  let s := (dropna c.cells).map (fun x => ((pyStrCell x).toLower).trim)
  if s.isEmpty then true
  else
    decide ((((s.countP (fun x =>
        x ∈ ["true", "false", "1", "0", "yes", "no", "y", "n"])) : Nat) : Rat) /
      ((s.length : Nat) : Rat) > (8 : Rat) / 10)

/-- `(y % 4 == 0 and y % 100 != 0) or y % 400 == 0`. -/
def isLeapYear (y : Nat) : Bool :=
  (y % 4 = 0 && !(y % 100 = 0)) || y % 400 = 0

def daysInMonth (y m : Nat) : Nat :=
  if m = 2 then (if isLeapYear y then 29 else 28)
  else if m = 4 || m = 6 || m = 9 || m = 11 then 30
  else 31

/-- Proleptic-Gregorian civil date to days since 1970-01-01, for years ≥ 1. -/
def daysFromCivil (y m d : Nat) : Int :=
  let y' := if m ≤ 2 then y - 1 else y
  let era := y' / 400
  let yoe := y' % 400
  let mp := if m > 2 then m - 3 else m + 9
  let doy := (153 * mp + 2) / 5 + d - 1
  let doe := yoe * 365 + yoe / 4 - yoe / 100 + doy
  ((era * 146097 + doe : Nat) : Int) - 719468

/-- An optional `HH:MM:SS` suffix, in seconds. -/
def parseTimePart (cs : List Char) : Option Nat :=
  match cs with
  | [] => some 0
  | [h1, h2, ':', m1, m2, ':', s1, s2] =>
      match parseNatDigits [h1, h2], parseNatDigits [m1, m2],
          parseNatDigits [s1, s2] with
      | some h, some mi, some s =>
          if h < 24 && mi < 60 && s < 60 then
            some (h * 3600 + mi * 60 + s)
          else none
      | _, _, _ => none
  | _ => none

/-- `pd.to_datetime(s, errors="coerce", utc=True)` on a string: ISO
`YYYY-MM-DD`, optionally followed by `T`/space and `HH:MM:SS`, to UTC epoch
seconds.  Other formats pandas may accept are not modelled and parse as
`NaT`. -/
def parseDatetimeString (str : String) : Option Int :=
  match str.trim.toList with
  | y1 :: y2 :: y3 :: y4 :: '-' :: m1 :: m2 :: '-' :: d1 :: d2 :: rest =>
      match parseNatDigits [y1, y2, y3, y4], parseNatDigits [m1, m2],
          parseNatDigits [d1, d2] with
      | some y, some m, some d =>
          if 1 ≤ y && 1 ≤ m && m ≤ 12 && 1 ≤ d && d ≤ daysInMonth y m then
            match rest with
            | [] => some (daysFromCivil y m d * 86400)
            | sep :: timeCs =>
                if sep = 'T' || sep = ' ' then
                  (parseTimePart timeCs).map
                    (fun secs => daysFromCivil y m d * 86400 + secs)
                else none
          else none
      | _, _, _ => none
  | _ => none

/-- `pd.to_datetime(..., errors="coerce", utc=True)` on one cell: datetimes
pass through, numbers are epoch stamps, everything unparseable becomes
`NaT`. -/
def toDatetimeCell : Cell → Cell
  | .null => .null
  | .dt x => .dt x
  | .i x => .dt x
  | .f x => .dt x.floor
  | .b _ => .null
  | .s x =>
      match parseDatetimeString x with
      | some t => .dt t
      | none => .null

/-- The parsed replacement series `pd.to_datetime(series, errors="coerce",
utc=True)`. -/
def parsedCol (c : Col) : Col :=
  ⟨c.name, .datetime64, c.cells.map toDatetimeCell⟩

/-- `pd.api.types.is_numeric_dtype` (true for integer, float and bool
dtypes). -/
def isNumericDtype (d : Dtype) : Bool :=
  d = .int64 || d = .float64 || d = .boolDt

/-- Python `repr` of a list of strings, as interpolated into quality
messages. -/
def pyReprStrList (l : List String) : String :=
  "[" ++ String.intercalate ", " (l.map (fun s => "'" ++ s ++ "'")) ++ "]"

/-- Decimal rendering of a float in a message.  Only the constant parts of
the affected messages are ever inspected, so an exact `str(float)` model is
not required. -/
def ratToStr (q : Rat) : String :=
  toString q.num ++ "/" ++ toString q.den

/-- Whether the expected type participates in the min/max bounds check. -/
def isNumericTypeName (et : String) : Bool :=
  et = "integer" || et = "int" || et = "number" || et = "float" || et = "double"

/-- The `min`/`max` bounds errors for one column
(`numeric = pd.to_numeric(df[col], errors="coerce")` then the two `any()`
tests).  A datetime64-dtype column would make `pd.to_numeric` raise; that
corner is modelled as producing no values. -/
def boundsErrors (col : String) (spec : ColSpec) (series : Col) : List String :=
  let numeric := (toNumericSeries series).getD []
  let vals := numeric.filterMap id
  (match spec.min? with
    | none => []
    | some mn =>
        if vals.any (fun q => decide (q < mn)) then
          ["Column '" ++ col ++ "' has values < min (" ++ ratToStr mn ++ ")."]
        else []) ++
  (match spec.max? with
    | none => []
    | some mx =>
        if vals.any (fun q => decide (q > mx)) then
          ["Column '" ++ col ++ "' has values > max (" ++ ratToStr mx ++ ")."]
        else [])

/-- The per-type conformance check of `validate_df` for one declared column
that is present with a non-empty non-null part, including the in-place
datetime coercion.  `expected_type = (spec.get("type") or "").lower()`:
`ctype` is already lower-cased and stripped by
`contracts.validate_contract_dict`, so the `.lower()` is the identity on
it. -/
def typeConformance (df : DataFrame) (col : String) (spec : ColSpec)
    (series : Col) (errors warnings : List String) :
    DataFrame × List String × List String :=
  if spec.ctype = "string" ∨ spec.ctype = "text" then (df, errors, warnings)
  else if spec.ctype = "integer" ∨ spec.ctype = "int" then
    (df,
      (if series.dtype = .int64 ∨ looksLikeInt series = true then errors
        else errors ++ ["Column '" ++ col ++ "' expected integer-like values."]),
      warnings)
  else if spec.ctype = "number" ∨ spec.ctype = "float" ∨ spec.ctype = "double" then
    (df,
      (if isNumericDtype series.dtype = true ∨ looksLikeNumber series = true then errors
        else errors ++ ["Column '" ++ col ++ "' expected numeric values."]),
      warnings)
  else if spec.ctype = "datetime" ∨ spec.ctype = "timestamp" then
    if series.dtype = .datetime64 then (df, errors, warnings)
    else if naFraction (parsedCol series).cells > (2 : Rat) / 10 then
      (df, errors ++ ["Column '" ++ col ++ "' expected datetime values."], warnings)
    else (dfSet df col (parsedCol series), errors, warnings)
  else if spec.ctype = "boolean" ∨ spec.ctype = "bool" then
    (df,
      (if series.dtype = .boolDt ∨ looksLikeBool series = true then errors
        else errors ++ ["Column '" ++ col ++ "' expected boolean values."]),
      warnings)
  else
    (df, errors,
      warnings ++ ["Unknown expected type '" ++ spec.ctype ++ "' for column '" ++
        col ++ "' (skipped strict check)."])

/-- The type check followed by the numeric `min`/`max` bounds check. -/
def typeDispatch (df : DataFrame) (col : String) (spec : ColSpec)
    (series : Col) (errors warnings : List String) :
    DataFrame × List String × List String :=
  if isNumericTypeName spec.ctype then
    ((typeConformance df col spec series errors warnings).1,
      (typeConformance df col spec series errors warnings).2.1 ++
        boundsErrors col spec series,
      (typeConformance df col spec series errors warnings).2.2)
  else typeConformance df col spec series errors warnings

/-- One iteration of the type-conformance loop: skip absent columns, skip
an empty declared type, skip columns whose non-null part is empty. -/
def typeCheckCol (df : DataFrame) (col : String) (spec : ColSpec)
    (errors warnings : List String) :
    DataFrame × List String × List String :=
  match dfGet? df col with
  | none => (df, errors, warnings)
  | some series =>
      if spec.ctype = "" then (df, errors, warnings)
      else if (dropna series.cells).isEmpty then (df, errors, warnings)
      else typeDispatch df col spec series errors warnings

/-- The full type-conformance loop over the contract's columns. -/
def typeCheckLoop (cols : List (String × ColSpec)) (df : DataFrame)
    (errors warnings : List String) :
    DataFrame × List String × List String :=
  match cols with
  | [] => (df, errors, warnings)
  | (col, spec) :: rest =>
      typeCheckLoop rest (typeCheckCol df col spec errors warnings).1
        (typeCheckCol df col spec errors warnings).2.1
        (typeCheckCol df col spec errors warnings).2.2

/-- `pd.Series.duplicated(keep=False).any()`: some value occurs at least
twice (pandas treats NaN as equal to NaN here, as does `Cell.null`). -/
def hasDuplicates (cells : List Cell) : Bool :=
  !(decide cells.Nodup)

/-- The per-column `unique` loop of `validate_df`. -/
def uniqueErrors (contract : DatasetContract) (df : DataFrame) : List String :=
  contract.columns.filterMap (fun p =>
    match dfGet? df p.1 with
    | none => none
    | some c =>
        if p.2.unique && hasDuplicates c.cells then
          some ("Column '" ++ p.1 ++ "' has duplicate values but is marked unique.")
        else none)

/-- The primary-key uniqueness check of `validate_df`. -/
def pkErrors (contract : DatasetContract) (df : DataFrame) : List String :=
  match contract.primaryKey with
  | none => []
  | some pk =>
      match dfGet? df pk with
      | none => []
      | some c =>
          if hasDuplicates c.cells then
            ["Primary key '" ++ pk ++ "' contains duplicates."]
          else []

/-- The null-threshold loop: accumulates `null_fractions` metrics and
threshold errors in contract order. -/
def nullFractionChecks (contract : DatasetContract) (df : DataFrame) :
    List (String × Rat) × List String :=
  contract.maxNullFraction.foldl (fun acc p =>
    match dfGet? df p.1 with
    | none => acc
    | some c =>
        (acc.1 ++ [(p.1, naFraction c.cells)],
          if naFraction c.cells > p.2 then
            acc.2 ++ ["Column '" ++ p.1 ++ "' null fraction " ++
              ratToStr (naFraction c.cells) ++ " exceeds threshold " ++
              ratToStr p.2 ++ "."]
          else acc.2)) ([], [])

/-- `quality.QualityResult` plus the `metrics` dict flattened into fields. -/
structure QualityResult where
  passed : Bool
  errors : List String
  warnings : List String
  rowCount : Nat
  columnCount : Nat
  nullFractions : List (String × Rat)
  deriving DecidableEq, Repr

/-- The message for a missing set of required columns. -/
def missingRequiredMsg (missing : List String) : String :=
  "Missing required columns: " ++ pyReprStrList missing

/-- The required columns absent from the batch. -/
def missingRequired (contract : DatasetContract) (df : DataFrame) :
    List String :=
  ((contract.columns.filter (fun p => p.2.required)).map Prod.fst).filter
    (fun c => decide (c ∉ dfNames df))

/-- The initial error list of `validate_df` (the required-columns check). -/
def initErrors (contract : DatasetContract) (df : DataFrame) : List String :=
  if (missingRequired contract df).isEmpty then []
  else [missingRequiredMsg (missingRequired contract df)]

/-- The initial warning list of `validate_df` (undeclared columns are a
warning only). -/
def initWarnings (contract : DatasetContract) (df : DataFrame) : List String :=
  if ((dfNames df).filter
      (fun c => decide (c ∉ contract.columns.map Prod.fst))).isEmpty then []
  else ["Unexpected columns present: " ++ pyReprStrList
    ((dfNames df).filter (fun c => decide (c ∉ contract.columns.map Prod.fst)))]

/-- The state (mutated batch, errors, warnings) after the type-conformance
loop of `validate_df`. -/
def validateLoop (df : DataFrame) (contract : DatasetContract) :
    DataFrame × List String × List String :=
  typeCheckLoop contract.columns df (initErrors contract df)
    (initWarnings contract df)

/-- The full error list accumulated by `validate_df`, in source order:
required/type/bounds errors (from the loop), then the `unique` loop, then
the primary-key check, then the null-fraction thresholds. -/
def validateErrors (df : DataFrame) (contract : DatasetContract) :
    List String :=
  (validateLoop df contract).2.1 ++
    uniqueErrors contract (validateLoop df contract).1 ++
    pkErrors contract (validateLoop df contract).1 ++
    (nullFractionChecks contract (validateLoop df contract).1).2

/-- `quality.validate_df`.  Returns the quality result together with the
batch as left behind by the in-place datetime coercion (the caller's `df`
object). -/
def validate_df (df : DataFrame) (contract : DatasetContract) :
    QualityResult × DataFrame :=
  (⟨(validateErrors df contract).isEmpty,
    validateErrors df contract,
    (validateLoop df contract).2.2,
    dfRowCount (validateLoop df contract).1,
    (validateLoop df contract).1.length,
    (nullFractionChecks contract (validateLoop df contract).1).1⟩,
    (validateLoop df contract).1)

/-! ### Quality gate: supporting lemmas -/

theorem natCast_div_le_eight_tenths {a b : Nat} (hab : a ≤ b) :
    (((a : Nat) : Rat) / ((b : Nat) : Rat) ≤ (8 : Rat) / 10) ↔
      10 * a ≤ 8 * b := by
  rcases Nat.eq_zero_or_pos b with hb | hb
  · subst hb
    have ha : a = 0 := Nat.le_zero.mp hab
    subst ha
    norm_num
  · have hb' : (0 : Rat) < (b : Rat) := by exact_mod_cast hb
    rw [div_le_div_iff hb' (by norm_num)]
    constructor
    · intro h
      have : (a : Rat) * 10 ≤ 8 * (b : Rat) := h
      have h' : ((10 * a : Nat) : Rat) ≤ ((8 * b : Nat) : Rat) := by
        push_cast
        linarith
      exact_mod_cast h'
    · intro h
      have h' : ((10 * a : Nat) : Rat) ≤ ((8 * b : Nat) : Rat) := by
        exact_mod_cast h
      push_cast at h'
      linarith

theorem natCast_div_gt_iff {a b m n : Nat} (hn : 0 < n) (hb : 0 < b) :
    (((a : Nat) : Rat) / ((b : Nat) : Rat) > ((m : Nat) : Rat) / ((n : Nat) : Rat)) ↔
      m * b < n * a := by
  have hb' : (0 : Rat) < (b : Rat) := by exact_mod_cast hb
  have hn' : (0 : Rat) < (n : Rat) := by exact_mod_cast hn
  rw [gt_iff_lt, div_lt_div_iff hn' hb']
  constructor
  · intro h
    have h' : ((m * b : Nat) : Rat) < ((n * a : Nat) : Rat) := by
      push_cast
      linarith
    exact_mod_cast h'
  · intro h
    have h' : ((m * b : Nat) : Rat) < ((n * a : Nat) : Rat) := by
      exact_mod_cast h
    push_cast at h'
    linarith

theorem looksLikeInt_eq_counts (c : Col) :
    looksLikeInt c =
      match toNumericSeries c with
      | none => false
      | some numeric =>
          if 10 * numeric.countP (fun x => x.isSome) ≤ 8 * numeric.length
            then false
          else decide (∀ q ∈ numeric.filterMap id, pyMod1 q < 1 / 1000000000) := by
  unfold looksLikeInt
  cases h : toNumericSeries c with
  | none => rfl
  | some numeric =>
      simp only []
      rw [if_congr
        (natCast_div_le_eight_tenths (List.countP_le_length _)) rfl rfl]

theorem looksLikeNumber_eq_counts (c : Col) :
    looksLikeNumber c =
      match toNumericSeries c with
      | none => false
      | some numeric =>
          decide (8 * numeric.length < 10 * numeric.countP (fun x => x.isSome)) := by
  unfold looksLikeNumber
  cases h : toNumericSeries c with
  | none => rfl
  | some numeric =>
      simp only []
      rcases Nat.eq_zero_or_pos numeric.length with hb | hb
      · have hcount : numeric.countP (fun x => x.isSome) = 0 := by
          have := List.countP_le_length (l := numeric) (p := fun x => x.isSome)
          omega
        rw [List.eq_nil_of_length_eq_zero hb] at *
        simp [hcount] at *
        norm_num
      · congr 1
        rw [show ((8 : Rat) / 10) = (((8 : Nat) : Rat) / ((10 : Nat) : Rat)) by norm_num]
        rw [natCast_div_gt_iff (by norm_num) hb]

theorem naFraction_gt_two_tenths (cells : List Cell) (h : cells ≠ []) :
    (naFraction cells > (2 : Rat) / 10) ↔
      2 * cells.length < 10 * cells.countP (fun x => x == Cell.null) := by
  unfold naFraction
  have hb : 0 < cells.length := List.length_pos.mpr h
  rw [show ((2 : Rat) / 10) = (((2 : Nat) : Rat) / ((10 : Nat) : Rat)) by norm_num]
  exact natCast_div_gt_iff (by norm_num) hb

/-! ### Quality gate: frame lemmas for the in-place datetime coercion -/

theorem dfNames_dfSet (df : DataFrame) (n : String) (x : Col)
    (hx : x.name = n) : dfNames (dfSet df n x) = dfNames df := by
  unfold dfNames dfSet
  rw [List.map_map]
  apply List.map_congr_left
  intro c _
  by_cases h : c.name = n
  · simp [h, hx]
  · simp [h]

theorem dfGet?_dfSet_ne (df : DataFrame) (n : String) (x : Col)
    (hx : x.name = n) {col : String} (h : col ≠ n) :
    dfGet? (dfSet df n x) col = dfGet? df col := by
  unfold dfGet? dfSet
  rw [List.find?_map]
  have hpred : ((fun c : Col => decide (c.name = col)) ∘
      (fun c => if c.name = n then x else c)) =
      (fun c : Col => decide (c.name = col)) := by
    funext c
    by_cases hc : c.name = n
    · have hxcol : ¬ (x.name = col) := by
        rw [hx]; exact fun hh => h hh.symm
      have hccol : ¬ (c.name = col) := by
        rw [hc]; exact fun hh => h hh.symm
      simp [hc, hxcol, hccol]
      exact fun hh => h hh.symm
    · simp [hc]
  rw [hpred]
  cases hf : List.find? (fun c : Col => decide (c.name = col)) df with
  | none => rfl
  | some c =>
      have hc : c.name = col := by simpa using List.find?_some hf
      have hcn : ¬ (c.name = n) := by rw [hc]; exact h
      simp [hcn]

theorem dfGet?_dfSet_self (df : DataFrame) (n : String) (x : Col)
    (hx : x.name = n) {c : Col} (h : dfGet? df n = some c) :
    dfGet? (dfSet df n x) n = some x := by
  unfold dfGet? dfSet
  unfold dfGet? at h
  rw [List.find?_map]
  have hpred : ((fun c : Col => decide (c.name = n)) ∘
      (fun c => if c.name = n then x else c)) =
      (fun c : Col => decide (c.name = n)) := by
    funext c
    by_cases hc : c.name = n
    · simp [hc, hx]
    · simp [hc]
  rw [hpred, h]
  have hc : c.name = n := by simpa using List.find?_some h
  simp [hc]

/-- The condition under which `validate_df` replaces a column in place by
its parsed datetime version. -/
def replaceCond (spec : ColSpec) (c : Col) : Prop :=
  (spec.ctype = "datetime" ∨ spec.ctype = "timestamp") ∧
    c.dtype ≠ .datetime64 ∧ (dropna c.cells).isEmpty = false ∧
    ¬ (naFraction (parsedCol c).cells > (2 : Rat) / 10)

instance (spec : ColSpec) (c : Col) : Decidable (replaceCond spec c) := by
  unfold replaceCond
  infer_instance

theorem parsedCol_name (c : Col) : (parsedCol c).name = c.name := rfl

theorem dfGet?_name {df : DataFrame} {col : String} {c : Col}
    (h : dfGet? df col = some c) : c.name = col := by
  have := List.find?_some h
  simpa using this

theorem typeDispatch_fst (df : DataFrame) (col : String) (spec : ColSpec)
    (series : Col) (e w : List String) :
    (typeDispatch df col spec series e w).1 =
      (typeConformance df col spec series e w).1 := by
  unfold typeDispatch
  by_cases hn : isNumericTypeName spec.ctype
  · rw [if_pos hn]
  · rw [if_neg hn]

theorem typeConformance_fst (df : DataFrame) (col : String) (spec : ColSpec)
    (series : Col) (e w : List String) :
    (typeConformance df col spec series e w).1 =
      if (spec.ctype = "datetime" ∨ spec.ctype = "timestamp") ∧
          ¬ series.dtype = .datetime64 ∧
          ¬ (naFraction (parsedCol series).cells > (2 : Rat) / 10)
        then dfSet df col (parsedCol series) else df := by
  by_cases hrep : (spec.ctype = "datetime" ∨ spec.ctype = "timestamp") ∧
      ¬ series.dtype = .datetime64 ∧
      ¬ (naFraction (parsedCol series).cells > (2 : Rat) / 10)
  · rw [if_pos hrep]
    obtain ⟨h5, h6, h7⟩ := hrep
    unfold typeConformance
    have h2 : ¬ (spec.ctype = "string" ∨ spec.ctype = "text") := by
      rcases h5 with h5 | h5 <;> rw [h5] <;> simp
    have h3 : ¬ (spec.ctype = "integer" ∨ spec.ctype = "int") := by
      rcases h5 with h5 | h5 <;> rw [h5] <;> simp
    have h4 : ¬ (spec.ctype = "number" ∨ spec.ctype = "float" ∨
        spec.ctype = "double") := by
      rcases h5 with h5 | h5 <;> rw [h5] <;> simp
    rw [if_neg h2, if_neg h3, if_neg h4, if_pos h5, if_neg h6, if_neg h7]
  · rw [if_neg hrep]
    unfold typeConformance
    split_ifs <;> try rfl
    all_goals
      exact absurd ⟨by assumption, by assumption, by assumption⟩ hrep

/-- Full characterization of the dataframe component of one type-check
step: exactly the in-place datetime replacement, under exactly
`replaceCond`. -/
theorem typeCheckCol_fst_eq (df : DataFrame) (col : String) (spec : ColSpec)
    (e w : List String) :
    (typeCheckCol df col spec e w).1 =
      match dfGet? df col with
      | none => df
      | some c => if replaceCond spec c then dfSet df col (parsedCol c) else df := by
  cases hget : dfGet? df col with
  | none =>
      simp [typeCheckCol, hget]
  | some series =>
      simp only [typeCheckCol, hget]
      by_cases h0 : spec.ctype = ""
      · rw [if_pos h0]
        have hnr : ¬ replaceCond spec series := by
          rintro ⟨h5, -, -, -⟩
          rw [h0] at h5
          rcases h5 with h5 | h5 <;> simp at h5
        rw [if_neg hnr]
      · rw [if_neg h0]
        by_cases h1 : (dropna series.cells).isEmpty
        · rw [if_pos h1]
          have hnr : ¬ replaceCond spec series := by
            rintro ⟨-, -, h1', -⟩
            rw [h1] at h1'
            exact Bool.noConfusion h1'
          rw [if_neg hnr]
        · rw [if_neg h1]
          rw [typeDispatch_fst, typeConformance_fst]
          have hcond : ((spec.ctype = "datetime" ∨ spec.ctype = "timestamp") ∧
              ¬ series.dtype = .datetime64 ∧
              ¬ (naFraction (parsedCol series).cells > (2 : Rat) / 10)) ↔
              replaceCond spec series := by
            unfold replaceCond
            constructor
            · rintro ⟨h5, h6, h7⟩
              exact ⟨h5, h6, by simpa using h1, h7⟩
            · rintro ⟨h5, h6, -, h7⟩
              exact ⟨h5, h6, h7⟩
          rw [if_congr hcond rfl rfl]

theorem typeCheckCol_get_ne (df : DataFrame) (col₀ : String) (spec : ColSpec)
    (e w : List String) {col : String} (h : col ≠ col₀) :
    dfGet? (typeCheckCol df col₀ spec e w).1 col = dfGet? df col := by
  rw [typeCheckCol_fst_eq]
  cases hget : dfGet? df col₀ with
  | none => rfl
  | some c =>
      show dfGet? (if replaceCond spec c then dfSet df col₀ (parsedCol c) else df)
        col = dfGet? df col
      by_cases hrep : replaceCond spec c
      · rw [if_pos hrep]
        exact dfGet?_dfSet_ne _ _ _
          (by rw [parsedCol_name]; exact dfGet?_name hget) h
      · rw [if_neg hrep]


theorem typeCheckCol_get_self (df : DataFrame) (col : String) (spec : ColSpec)
    (e w : List String) {c : Col} (hget : dfGet? df col = some c) :
    dfGet? (typeCheckCol df col spec e w).1 col =
      some (if replaceCond spec c then parsedCol c else c) := by
  rw [typeCheckCol_fst_eq, hget]
  show dfGet? (if replaceCond spec c then dfSet df col (parsedCol c) else df)
    col = _
  by_cases hrep : replaceCond spec c
  · rw [if_pos hrep, if_pos hrep]
    exact dfGet?_dfSet_self _ _ _
      (by rw [parsedCol_name]; exact dfGet?_name hget) hget
  · rw [if_neg hrep, if_neg hrep]
    exact hget

theorem typeCheckCol_names (df : DataFrame) (col : String) (spec : ColSpec)
    (e w : List String) :
    dfNames (typeCheckCol df col spec e w).1 = dfNames df := by
  rw [typeCheckCol_fst_eq]
  cases hget : dfGet? df col with
  | none => rfl
  | some c =>
      show dfNames (if replaceCond spec c then dfSet df col (parsedCol c) else df) = _
      by_cases hrep : replaceCond spec c
      · rw [if_pos hrep]
        exact dfNames_dfSet _ _ _
          (by rw [parsedCol_name]; exact dfGet?_name hget)
      · rw [if_neg hrep]

theorem typeCheckLoop_names (cols : List (String × ColSpec)) (df : DataFrame)
    (e w : List String) :
    dfNames (typeCheckLoop cols df e w).1 = dfNames df := by
  induction cols generalizing df e w with
  | nil => rfl
  | cons p rest ih =>
      obtain ⟨col, spec⟩ := p
      unfold typeCheckLoop
      rw [ih]
      exact typeCheckCol_names df col spec e w

theorem typeCheckLoop_get_ne (cols : List (String × ColSpec)) (df : DataFrame)
    (e w : List String) {col : String} (h : ∀ p ∈ cols, p.1 ≠ col) :
    dfGet? (typeCheckLoop cols df e w).1 col = dfGet? df col := by
  induction cols generalizing df e w with
  | nil => rfl
  | cons p rest ih =>
      obtain ⟨col₀, spec⟩ := p
      unfold typeCheckLoop
      rw [ih _ _ _ (fun q hq => h q (List.mem_cons_of_mem _ hq))]
      exact typeCheckCol_get_ne df col₀ spec e w
        (fun hh => h (col₀, spec) (List.mem_cons_self _ _) hh.symm)

theorem typeCheckLoop_get_decl (cols : List (String × ColSpec))
    (df : DataFrame) (e w : List String) {col : String} {spec : ColSpec}
    {c : Col} (hmem : (col, spec) ∈ cols)
    (hnodup : (cols.map Prod.fst).Nodup)
    (hget : dfGet? df col = some c) :
    dfGet? (typeCheckLoop cols df e w).1 col =
      some (if replaceCond spec c then parsedCol c else c) := by
  induction cols generalizing df e w with
  | nil => simp at hmem
  | cons p rest ih =>
      obtain ⟨col₀, spec₀⟩ := p
      rw [List.map_cons, List.nodup_cons] at hnodup
      rcases List.mem_cons.mp hmem with heq | hmem'
      · obtain ⟨h1, h2⟩ := Prod.mk.injEq .. ▸ heq
        subst h1
        subst h2
        unfold typeCheckLoop
        rw [typeCheckLoop_get_ne _ _ _ _ (fun q hq hh => hnodup.1 (by
          rw [← hh]
          exact List.mem_map.mpr ⟨q, hq, rfl⟩))]
        exact typeCheckCol_get_self df col spec e w hget
      · have hcolmem : col ∈ rest.map Prod.fst :=
          List.mem_map.mpr ⟨(col, spec), hmem', rfl⟩
        have hne : col ≠ col₀ := fun hh => hnodup.1 (hh ▸ hcolmem)
        unfold typeCheckLoop
        exact ih _ _ _ hmem' hnodup.2
          (by rw [typeCheckCol_get_ne df col₀ spec₀ e w hne]; exact hget)

theorem typeConformance_errors_append (df : DataFrame) (col : String)
    (spec : ColSpec) (series : Col) (e w : List String) :
    ∃ Δ, (typeConformance df col spec series e w).2.1 = e ++ Δ := by
  unfold typeConformance
  split_ifs <;>
    first
      | exact ⟨[], (List.append_nil e).symm⟩
      | exact ⟨_, rfl⟩

theorem typeDispatch_errors_append (df : DataFrame) (col : String)
    (spec : ColSpec) (series : Col) (e w : List String) :
    ∃ Δ, (typeDispatch df col spec series e w).2.1 = e ++ Δ := by
  obtain ⟨Δ₁, h₁⟩ := typeConformance_errors_append df col spec series e w
  unfold typeDispatch
  by_cases hnum : isNumericTypeName spec.ctype
  · rw [if_pos hnum]
    exact ⟨Δ₁ ++ boundsErrors col spec series, by
      show (typeConformance df col spec series e w).2.1 ++ _ = _
      rw [h₁, List.append_assoc]⟩
  · rw [if_neg hnum]
    exact ⟨Δ₁, h₁⟩

theorem typeCheckCol_errors_append (df : DataFrame) (col : String)
    (spec : ColSpec) (e w : List String) :
    ∃ Δ, (typeCheckCol df col spec e w).2.1 = e ++ Δ := by
  cases hget : dfGet? df col with
  | none =>
      refine ⟨[], ?_⟩
      simp [typeCheckCol, hget]
  | some series =>
      simp only [typeCheckCol, hget]
      by_cases h0 : spec.ctype = ""
      · rw [if_pos h0]
        exact ⟨[], (List.append_nil e).symm⟩
      · rw [if_neg h0]
        by_cases h1 : (dropna series.cells).isEmpty
        · rw [if_pos h1]
          exact ⟨[], (List.append_nil e).symm⟩
        · rw [if_neg h1]
          exact typeDispatch_errors_append df col spec series e w

theorem typeCheckLoop_errors_append (cols : List (String × ColSpec))
    (df : DataFrame) (e w : List String) :
    ∃ Δ, (typeCheckLoop cols df e w).2.1 = e ++ Δ := by
  induction cols generalizing df e w with
  | nil => exact ⟨[], by simp [typeCheckLoop]⟩
  | cons p rest ih =>
      obtain ⟨col, spec⟩ := p
      obtain ⟨Δ₁, h₁⟩ := typeCheckCol_errors_append df col spec e w
      obtain ⟨Δ₂, h₂⟩ := ih (typeCheckCol df col spec e w).1
        (typeCheckCol df col spec e w).2.1 (typeCheckCol df col spec e w).2.2
      refine ⟨Δ₁ ++ Δ₂, ?_⟩
      unfold typeCheckLoop
      rw [h₂, h₁, List.append_assoc]

/-- The errors written by one iteration of the type loop for an
integer-typed declared column that is present with values. -/
theorem typeCheckCol_errors_integer (df : DataFrame) (col : String)
    (spec : ColSpec) (e w : List String) {series : Col}
    (hget : dfGet? df col = some series)
    (htype : spec.ctype = "integer" ∨ spec.ctype = "int")
    (hne : (dropna series.cells).isEmpty = false) :
    (typeCheckCol df col spec e w).2.1 =
      e ++ (if series.dtype = .int64 ∨ looksLikeInt series = true then []
            else ["Column '" ++ col ++ "' expected integer-like values."])
        ++ boundsErrors col spec series := by
  have h0 : ¬ spec.ctype = "" := by
    rcases htype with h | h <;> rw [h] <;> simp
  have h2 : ¬ (spec.ctype = "string" ∨ spec.ctype = "text") := by
    rcases htype with h | h <;> rw [h] <;> simp
  have hnum : isNumericTypeName spec.ctype = true := by
    unfold isNumericTypeName
    rcases htype with h | h <;> rw [h] <;> simp
  have hne' : ¬ ((dropna series.cells).isEmpty = true) := by
    rw [hne]; exact Bool.noConfusion
  have htc : (typeConformance df col spec series e w).2.1 =
      (if series.dtype = .int64 ∨ looksLikeInt series = true then e
        else e ++ ["Column '" ++ col ++ "' expected integer-like values."]) := by
    unfold typeConformance
    rw [if_neg h2, if_pos htype]
  have htd : (typeDispatch df col spec series e w).2.1 =
      (typeConformance df col spec series e w).2.1 ++
        boundsErrors col spec series := by
    unfold typeDispatch
    rw [if_pos hnum]
  simp only [typeCheckCol, hget]
  rw [if_neg h0, if_neg hne', htd, htc]
  by_cases hok : series.dtype = .int64 ∨ looksLikeInt series = true
  · rw [if_pos hok, if_pos hok]
    simp
  · rw [if_neg hok, if_neg hok]

theorem toDatetimeCell_idem (x : Cell) :
    toDatetimeCell (toDatetimeCell x) = toDatetimeCell x := by
  cases x with
  | s v =>
      cases h : parseDatetimeString v with
      | none => simp [toDatetimeCell, h]
      | some t => simp [toDatetimeCell, h]
  | _ => rfl

/-- Any column the type loop leaves behind for a name carries either the
original cells or their datetime-parsed image (no other mutation exists). -/
theorem typeCheckLoop_get_or (cols : List (String × ColSpec))
    (df : DataFrame) (e w : List String) {col : String} {c : Col}
    (hget : dfGet? df col = some c) :
    ∃ c', dfGet? (typeCheckLoop cols df e w).1 col = some c' ∧
      (c' = c ∨ c'.cells = c.cells.map toDatetimeCell) := by
  suffices hgen : ∀ (cols : List (String × ColSpec)) (df : DataFrame)
      (e w : List String) (c₀ : Col),
      dfGet? df col = some c₀ →
      (c₀ = c ∨ c₀.cells = c.cells.map toDatetimeCell) →
      ∃ c', dfGet? (typeCheckLoop cols df e w).1 col = some c' ∧
        (c' = c ∨ c'.cells = c.cells.map toDatetimeCell) by
    exact hgen cols df e w c hget (Or.inl rfl)
  intro cols
  induction cols with
  | nil =>
      intro df e w c₀ hg hor
      exact ⟨c₀, hg, hor⟩
  | cons p rest ih =>
      intro df e w c₀ hg hor
      obtain ⟨col₀, spec₀⟩ := p
      unfold typeCheckLoop
      by_cases hcol : col = col₀
      · subst hcol
        have hstep := typeCheckCol_get_self df col spec₀ e w hg
        by_cases hrep : replaceCond spec₀ c₀
        · rw [if_pos hrep] at hstep
          refine ih _ _ _ _ hstep (Or.inr ?_)
          rcases hor with h | h
          · rw [h]
            rfl
          · show c₀.cells.map toDatetimeCell = _
            rw [h, List.map_map]
            apply List.map_congr_left
            intro x _
            exact toDatetimeCell_idem x
        · rw [if_neg hrep] at hstep
          exact ih _ _ _ _ hstep hor
      · have hstep : dfGet? (typeCheckCol df col₀ spec₀ e w).1 col = some c₀ := by
          rw [typeCheckCol_get_ne df col₀ spec₀ e w hcol]
          exact hg
        exact ih _ _ _ _ hstep hor

/-- Duplicated cells stay duplicated under any per-cell map. -/
theorem hasDuplicates_map {cells : List Cell} {f : Cell → Cell}
    (h : hasDuplicates cells = true) :
    hasDuplicates (cells.map f) = true := by
  unfold hasDuplicates at *
  simp only [Bool.not_eq_true', decide_eq_false_iff_not] at h ⊢
  exact fun hn => h (hn.of_map)

/-- The integer type-conformance error survives to the end of the type
loop when the declared column's check fails. -/
theorem typeCheckLoop_integer_err (cols : List (String × ColSpec))
    (df : DataFrame) (e w : List String) {col : String} {spec : ColSpec}
    {series : Col} (hmem : (col, spec) ∈ cols)
    (hnodup : (cols.map Prod.fst).Nodup)
    (hget : dfGet? df col = some series)
    (htype : spec.ctype = "integer" ∨ spec.ctype = "int")
    (hne : (dropna series.cells).isEmpty = false)
    (hbad : ¬ (series.dtype = .int64 ∨ looksLikeInt series = true)) :
    ("Column '" ++ col ++ "' expected integer-like values.") ∈
      (typeCheckLoop cols df e w).2.1 := by
  induction cols generalizing df e w with
  | nil => simp at hmem
  | cons p rest ih =>
      obtain ⟨col₀, spec₀⟩ := p
      rw [List.map_cons, List.nodup_cons] at hnodup
      unfold typeCheckLoop
      rcases List.mem_cons.mp hmem with heq | hmem'
      · obtain ⟨h1, h2⟩ := Prod.mk.injEq .. ▸ heq
        subst h1
        subst h2
        have hstep := typeCheckCol_errors_integer df col spec e w hget htype hne
        rw [if_neg hbad] at hstep
        obtain ⟨Δ, hΔ⟩ := typeCheckLoop_errors_append rest
          (typeCheckCol df col spec e w).1 (typeCheckCol df col spec e w).2.1
          (typeCheckCol df col spec e w).2.2
        rw [hΔ, hstep]
        simp
      · have hcolmem : col ∈ rest.map Prod.fst :=
          List.mem_map.mpr ⟨(col, spec), hmem', rfl⟩
        have hnecol : col ≠ col₀ := fun hh => hnodup.1 (hh ▸ hcolmem)
        exact ih _ _ _ hmem' hnodup.2
          (by rw [typeCheckCol_get_ne df col₀ spec₀ e w hnecol]; exact hget)

/-- C8: a batch missing a required column fails quality with the message
naming it; a declared primary key present with duplicate values fails
quality with the duplicate-key message; and `passed` is true exactly when
the accumulated error list is empty. -/
theorem claim_C8 :
    (∀ (df : DataFrame) (contract : DatasetContract) (col : String)
        (spec : ColSpec),
        (col, spec) ∈ contract.columns → spec.required = true →
        ¬ col ∈ dfNames df →
          col ∈ missingRequired contract df ∧
          missingRequiredMsg (missingRequired contract df) ∈
            (validate_df df contract).1.errors ∧
          (validate_df df contract).1.passed = false)
    ∧ (∀ (df : DataFrame) (contract : DatasetContract) (pk : String) (c : Col),
        contract.primaryKey = some pk → dfGet? df pk = some c →
        hasDuplicates c.cells = true →
          ("Primary key '" ++ pk ++ "' contains duplicates.") ∈
            (validate_df df contract).1.errors ∧
          (validate_df df contract).1.passed = false)
    ∧ (∀ (df : DataFrame) (contract : DatasetContract),
        (validate_df df contract).1.passed = true ↔
          (validate_df df contract).1.errors = []) := by
  refine ⟨?_, ?_, ?_⟩
  · intro df contract col spec hmem hreq habs
    have hcolmem : col ∈ missingRequired contract df := by
      unfold missingRequired
      rw [List.mem_filter]
      refine ⟨List.mem_map.mpr ⟨(col, spec), List.mem_filter.mpr ⟨hmem, by
        simpa using hreq⟩, rfl⟩, by simpa using habs⟩
    have hinit : initErrors contract df =
        [missingRequiredMsg (missingRequired contract df)] := by
      unfold initErrors
      rw [if_neg (by
        intro hempty
        rw [List.isEmpty_iff] at hempty
        rw [hempty] at hcolmem
        simp at hcolmem)]
    have hmemloop : missingRequiredMsg (missingRequired contract df) ∈
        (validateLoop df contract).2.1 := by
      unfold validateLoop
      obtain ⟨Δ, hΔ⟩ := typeCheckLoop_errors_append contract.columns df
        (initErrors contract df) (initWarnings contract df)
      rw [hΔ, hinit]
      simp
    have hmemerr : missingRequiredMsg (missingRequired contract df) ∈
        validateErrors df contract := by
      unfold validateErrors
      simp only [List.mem_append]
      exact Or.inl (Or.inl (Or.inl hmemloop))
    refine ⟨hcolmem, hmemerr, ?_⟩
    show (validateErrors df contract).isEmpty = false
    rw [List.isEmpty_eq_false_iff_exists_mem]
    exact ⟨_, hmemerr⟩
  · intro df contract pk c hpk hget hdup
    obtain ⟨c', hc', hor⟩ := typeCheckLoop_get_or contract.columns df
      (initErrors contract df) (initWarnings contract df) hget
    have hdup' : hasDuplicates c'.cells = true := by
      rcases hor with h | h
      · rw [h]; exact hdup
      · rw [h]; exact hasDuplicates_map hdup
    have hc'' : dfGet? (validateLoop df contract).1 pk = some c' := hc'
    have hpkerr : pkErrors contract (validateLoop df contract).1 =
        ["Primary key '" ++ pk ++ "' contains duplicates."] := by
      unfold pkErrors
      rw [hpk]
      show (match dfGet? (validateLoop df contract).1 pk with
        | none => ([] : List String)
        | some c =>
            if hasDuplicates c.cells = true then
              ["Primary key '" ++ pk ++ "' contains duplicates."]
            else []) = _
      rw [hc'']
      show (if hasDuplicates c'.cells = true then
        ["Primary key '" ++ pk ++ "' contains duplicates."] else []) = _
      rw [if_pos hdup']
    have hmemerr : ("Primary key '" ++ pk ++ "' contains duplicates.") ∈
        validateErrors df contract := by
      unfold validateErrors
      simp only [List.mem_append]
      exact Or.inl (Or.inr (by rw [hpkerr]; simp))
    refine ⟨hmemerr, ?_⟩
    show (validateErrors df contract).isEmpty = false
    rw [List.isEmpty_eq_false_iff_exists_mem]
    exact ⟨_, hmemerr⟩
  · intro df contract
    show (validateErrors df contract).isEmpty = true ↔
      validateErrors df contract = []
    rw [List.isEmpty_iff]

/-- C8 witness: the spec's own example — a primary-key column with a
duplicated value fails quality with the duplicate-key message, a batch
missing a required column fails quality, and a clean batch passes with an
empty error list. -/
theorem claim_C8_witness :
    (("Primary key '" ++ "parcel_id" ++ "' contains duplicates.") ∈
        (validate_df [⟨"parcel_id", .objectDt, [.s "P1", .s "P1"]⟩]
          ⟨"parcels", some "parcel_id",
            [("parcel_id", ⟨"string", true, false, none, none⟩)], [], none⟩).1.errors
      ∧ (validate_df [⟨"parcel_id", .objectDt, [.s "P1", .s "P1"]⟩]
          ⟨"parcels", some "parcel_id",
            [("parcel_id", ⟨"string", true, false, none, none⟩)], [], none⟩).1.passed
          = false)
    ∧ ((validate_df []
        ⟨"parcels", none, [("a", ⟨"string", true, false, none, none⟩)], [],
          none⟩).1.passed = false) := by
  constructor
  · exact claim_C8.2.1 [⟨"parcel_id", .objectDt, [.s "P1", .s "P1"]⟩]
      ⟨"parcels", some "parcel_id",
        [("parcel_id", ⟨"string", true, false, none, none⟩)], [], none⟩
      "parcel_id" ⟨"parcel_id", .objectDt, [.s "P1", .s "P1"]⟩ rfl rfl
      (by decide)
  · exact (claim_C8.1 []
      ⟨"parcels", none, [("a", ⟨"string", true, false, none, none⟩)], [], none⟩
      "a" ⟨"string", true, false, none, none⟩ (by decide) rfl
      (by decide)).2.2

theorem pyMod1_eq_fract (q : Rat) : pyMod1 q = Int.fract q := rfl

theorem pyMod1_intCast (n : Int) : pyMod1 ((n : Int) : Rat) = 0 := by
  rw [pyMod1_eq_fract]
  exact Int.fract_intCast n

/-- C7 (amended): for an integer-declared column present with a non-empty
non-null part and a non-datetime dtype, the type-conformance check adds no
error exactly when the dtype is integer or the column "looks like int";
"looks like int" holds exactly when strictly more than 80% of all cells
(nulls counting against the fraction) convert to a number and every
converted value has fractional part below 1e-9; and when the check fails
the error message reaches the final quality report. -/
theorem claim_C7 (df : DataFrame) (contract : DatasetContract) (col : String)
    (spec : ColSpec) (series : Col) (e w : List String)
    (hget : dfGet? df col = some series)
    (htype : spec.ctype = "integer" ∨ spec.ctype = "int")
    (hne : (dropna series.cells).isEmpty = false)
    (hdt : ¬ series.dtype = .datetime64) :
    ((typeCheckCol df col spec e w).2.1 =
      e ++ (if series.dtype = .int64 ∨ looksLikeInt series = true then []
            else ["Column '" ++ col ++ "' expected integer-like values."])
        ++ boundsErrors col spec series)
    ∧ (looksLikeInt series = true ↔
        8 * series.cells.length <
            10 * (series.cells.map toNumericCell).countP (fun x => x.isSome) ∧
          ∀ q ∈ (series.cells.map toNumericCell).filterMap id,
            pyMod1 q < 1 / 1000000000)
    ∧ ((col, spec) ∈ contract.columns →
        (contract.columns.map Prod.fst).Nodup →
        ¬ (series.dtype = .int64 ∨ looksLikeInt series = true) →
        ("Column '" ++ col ++ "' expected integer-like values.") ∈
          (validate_df df contract).1.errors) := by
  refine ⟨typeCheckCol_errors_integer df col spec e w hget htype hne, ?_, ?_⟩
  · rw [looksLikeInt_eq_counts]
    unfold toNumericSeries
    rw [if_neg hdt]
    show (if 10 * (series.cells.map toNumericCell).countP (fun x => x.isSome) ≤
          8 * (series.cells.map toNumericCell).length then false
        else decide (∀ q ∈ (series.cells.map toNumericCell).filterMap id,
          pyMod1 q < 1 / 1000000000)) = true ↔ _
    rw [List.length_map]
    by_cases hle : 10 * (series.cells.map toNumericCell).countP
        (fun x => x.isSome) ≤ 8 * series.cells.length
    · rw [if_pos hle]
      simp only [Bool.false_eq_true, false_iff]
      rintro ⟨hlt, -⟩
      omega
    · rw [if_neg hle]
      simp only [decide_eq_true_eq]
      constructor
      · intro h
        exact ⟨by omega, h⟩
      · rintro ⟨-, h⟩
        exact h
  · intro hmem hnodup hbad
    have hloop := typeCheckLoop_integer_err contract.columns df
      (initErrors contract df) (initWarnings contract df) hmem hnodup hget
      htype hne hbad
    show _ ∈ validateErrors df contract
    unfold validateErrors
    simp only [List.mem_append]
    exact Or.inl (Or.inl (Or.inl hloop))

/-- C7 counterexample: an integer-declared object column holding one null
and four whole numbers.  Every non-null value (100% ≥ 80%) converts with
zero fractional remainder, yet the check adds the integer error, because
the source computes the fraction over all rows (4/5) and requires it to be
strictly greater than 0.8. -/
theorem claim_C7_counterexample :
    ((validate_df [⟨"n", .objectDt, [.null, .i 1, .i 2, .i 3, .i 4]⟩]
        ⟨"d", none, [("n", ⟨"integer", false, false, none, none⟩)], [],
          none⟩).1.errors
      = ["Column '" ++ "n" ++ "' expected integer-like values."])
    ∧ ((((dropna [Cell.null, .i 1, .i 2, .i 3, .i 4]).countP
          (fun x => match toNumericCell x with
            | some q => decide (pyMod1 q = 0)
            | none => false) : Nat) : Rat) /
        (((dropna [Cell.null, .i 1, .i 2, .i 3, .i 4]).length : Nat) : Rat)
        ≥ (8 : Rat) / 10) := by
  constructor
  · simp [validate_df, validateErrors, validateLoop, initErrors,
      initWarnings, missingRequired, missingRequiredMsg, pyReprStrList,
      typeCheckLoop, typeCheckCol, typeDispatch, typeConformance, dfGet?,
      dfNames, dropna, looksLikeInt_eq_counts, toNumericSeries,
      toNumericCell, isNumericTypeName, boundsErrors, uniqueErrors,
      pkErrors, nullFractionChecks, hasDuplicates, List.countP,
      List.countP.go]
  · simp only [dropna, toNumericCell, List.filter, List.countP,
      List.countP.go, List.length]
    norm_num [pyMod1_eq_fract, Int.fract_one, Int.fract_ofNat]

/-- C7 witness: the amended characterization applied to the counterexample
column, discharging every hypothesis concretely. -/
theorem claim_C7_witness :
    (typeCheckCol [⟨"n", .objectDt, [.null, .i 1, .i 2, .i 3, .i 4]⟩] "n"
        ⟨"integer", false, false, none, none⟩ [] []).2.1 =
      [] ++ (if (⟨"n", .objectDt, [.null, .i 1, .i 2, .i 3, .i 4]⟩ : Col).dtype
            = .int64 ∨
          looksLikeInt ⟨"n", .objectDt, [.null, .i 1, .i 2, .i 3, .i 4]⟩ = true
          then []
          else ["Column '" ++ "n" ++ "' expected integer-like values."])
        ++ boundsErrors "n" ⟨"integer", false, false, none, none⟩
          ⟨"n", .objectDt, [.null, .i 1, .i 2, .i 3, .i 4]⟩ :=
  (claim_C7 [⟨"n", .objectDt, [.null, .i 1, .i 2, .i 3, .i 4]⟩]
    ⟨"d", none, [("n", ⟨"integer", false, false, none, none⟩)], [], none⟩
    "n" ⟨"integer", false, false, none, none⟩
    ⟨"n", .objectDt, [.null, .i 1, .i 2, .i 3, .i 4]⟩ [] [] rfl
    (Or.inl rfl) (by decide) (by decide)).1

/-- C10 (amended): `validate_df` mutates its input batch exactly as
follows — a contract column declared datetime/timestamp whose batch column
is not already datetime-typed, has a non-empty non-null part, and whose
parsed version is at most 20% NaT (nulls and unparseable values together)
is replaced in place by the parsed column; every other column is left
unchanged, and the column name list is preserved. -/
theorem claim_C10 (df : DataFrame) (contract : DatasetContract)
    (hnodup : (contract.columns.map Prod.fst).Nodup) :
    dfNames (validate_df df contract).2 = dfNames df
    ∧ (∀ col : String, (∀ p ∈ contract.columns, p.1 ≠ col) →
        dfGet? (validate_df df contract).2 col = dfGet? df col)
    ∧ (∀ (col : String) (spec : ColSpec) (c : Col),
        (col, spec) ∈ contract.columns → dfGet? df col = some c →
        dfGet? (validate_df df contract).2 col =
          some (if replaceCond spec c then parsedCol c else c)) := by
  refine ⟨?_, ?_, ?_⟩
  · show dfNames (typeCheckLoop contract.columns df (initErrors contract df)
      (initWarnings contract df)).1 = dfNames df
    exact typeCheckLoop_names contract.columns df _ _
  · intro col h
    show dfGet? (typeCheckLoop contract.columns df (initErrors contract df)
      (initWarnings contract df)).1 col = dfGet? df col
    exact typeCheckLoop_get_ne contract.columns df _ _ h
  · intro col spec c hmem hget
    show dfGet? (typeCheckLoop contract.columns df (initErrors contract df)
      (initWarnings contract df)).1 col = _
    exact typeCheckLoop_get_decl contract.columns df _ _ hmem hnodup hget

theorem dt_beq_null (x : Int) : (Cell.dt x == Cell.null) = false := rfl

theorem null_beq_null : (Cell.null == Cell.null) = true := rfl

/-- C10 counterexample: a datetime-declared object column with three nulls
and seven parseable timestamps.  None of its non-null values is
unparseable (0% ≤ 20%), yet the column is left unchanged and the datetime
error is raised, because the source counts the original nulls in its NaT
fraction (3/10 > 0.2). -/
theorem claim_C10_counterexample :
    ((validate_df [⟨"ts", .objectDt,
        [.null, .null, .null, .dt 1, .dt 2, .dt 3, .dt 4, .dt 5, .dt 6, .dt 7]⟩]
        ⟨"d", none, [("ts", ⟨"datetime", false, false, none, none⟩)], [],
          none⟩).2
      = [⟨"ts", .objectDt,
        [.null, .null, .null, .dt 1, .dt 2, .dt 3, .dt 4, .dt 5, .dt 6, .dt 7]⟩])
    ∧ ((validate_df [⟨"ts", .objectDt,
        [.null, .null, .null, .dt 1, .dt 2, .dt 3, .dt 4, .dt 5, .dt 6, .dt 7]⟩]
        ⟨"d", none, [("ts", ⟨"datetime", false, false, none, none⟩)], [],
          none⟩).1.errors
      = ["Column '" ++ "ts" ++ "' expected datetime values."])
    ∧ ((dropna [Cell.null, .null, .null, .dt 1, .dt 2, .dt 3, .dt 4, .dt 5,
        .dt 6, .dt 7]).countP (fun x => toDatetimeCell x == Cell.null) = 0)
    ∧ ¬ (Dtype.objectDt = Dtype.datetime64) := by
  refine ⟨?_, ?_, by decide, by decide⟩ <;>
    simp [validate_df, validateErrors, validateLoop, initErrors,
      initWarnings, missingRequired, missingRequiredMsg, pyReprStrList,
      typeCheckLoop, typeCheckCol, typeDispatch, typeConformance, dfGet?,
      dfNames, dropna, isNumericTypeName, boundsErrors, uniqueErrors,
      pkErrors, nullFractionChecks, hasDuplicates, parsedCol,
      toDatetimeCell, naFraction_gt_two_tenths, List.countP,
      List.countP.go, beq_iff_eq, dt_beq_null, null_beq_null]

/-- C10 witness: the amended frame characterization applied to a batch
with one datetime-declared, fully parseable column and one undeclared
column. -/
theorem claim_C10_witness :
    dfNames (validate_df [⟨"ts", .objectDt, [.dt 0, .dt 86400]⟩,
        ⟨"x", .objectDt, [.s "a", .s "b"]⟩]
        ⟨"d", none, [("ts", ⟨"datetime", false, false, none, none⟩)], [],
          none⟩).2
      = dfNames [⟨"ts", .objectDt, [.dt 0, .dt 86400]⟩,
        ⟨"x", .objectDt, [.s "a", .s "b"]⟩]
    ∧ dfGet? (validate_df [⟨"ts", .objectDt, [.dt 0, .dt 86400]⟩,
        ⟨"x", .objectDt, [.s "a", .s "b"]⟩]
        ⟨"d", none, [("ts", ⟨"datetime", false, false, none, none⟩)], [],
          none⟩).2 "ts"
      = some (if replaceCond ⟨"datetime", false, false, none, none⟩
            ⟨"ts", .objectDt, [.dt 0, .dt 86400]⟩ then
          parsedCol ⟨"ts", .objectDt, [.dt 0, .dt 86400]⟩
        else ⟨"ts", .objectDt, [.dt 0, .dt 86400]⟩) := by
  have h := claim_C10 [⟨"ts", .objectDt, [.dt 0, .dt 86400]⟩,
      ⟨"x", .objectDt, [.s "a", .s "b"]⟩]
    ⟨"d", none, [("ts", ⟨"datetime", false, false, none, none⟩)], [], none⟩
    (by decide)
  exact ⟨h.1, h.2.2 "ts" ⟨"datetime", false, false, none, none⟩
    ⟨"ts", .objectDt, [.dt 0, .dt 86400]⟩ (by decide) rfl⟩

/-! ## Curated loader (`loaders/postgres.upsert_curated`) -/

/-- One curated row, cells laid out in the column order
`contract.columns ++ [_ingestion_id, _loaded_at, _source_sha256]`. -/
abbrev Row := List Cell

/-- `df[c] = None` for each declared column missing from the batch
(pandas appends new columns on the right). -/
def addMissing (contract : DatasetContract) (df : DataFrame) : DataFrame :=
  df ++ ((contract.columns.map Prod.fst).filter
    (fun c => decide (c ∉ dfNames df))).map
    (fun c => ⟨c, .objectDt, List.replicate (dfRowCount df) Cell.null⟩)

/-- `df = df[cols].copy()`: reindex to exactly the declared columns, in
contract order (after `addMissing` every declared column is present; the
default is never reached). -/
def projectCols (contract : DatasetContract) (df : DataFrame) : DataFrame :=
  (contract.columns.map Prod.fst).map
    (fun c => (dfGet? df c).getD ⟨c, .objectDt,
      List.replicate (dfRowCount df) Cell.null⟩)

/-- The datetime coercion loop of `upsert_curated`. -/
def coerceDatetimes (cols : List (String × ColSpec)) (df : DataFrame) :
    DataFrame :=
  cols.foldl (fun d p =>
    if p.2.ctype = "datetime" ∨ p.2.ctype = "timestamp" then
      match dfGet? d p.1 with
      | none => d
      | some c => dfSet d p.1 (parsedCol c)
    else d) df

/-- The three lineage columns stamped by `upsert_curated`; `now_utc()` is
the explicit `loadedAt`. -/
def addLineage (df : DataFrame) (ingestionId sourceSha256 : String)
    (loadedAt : Int) : DataFrame :=
  df ++ [⟨"_ingestion_id", .objectDt,
      List.replicate (dfRowCount df) (Cell.s ingestionId)⟩,
    ⟨"_loaded_at", .datetime64, List.replicate (dfRowCount df) (Cell.dt loadedAt)⟩,
    ⟨"_source_sha256", .objectDt,
      List.replicate (dfRowCount df) (Cell.s sourceSha256)⟩]

/-- The row-major extraction `[tuple(df[c].iloc[i] for c in all_cols) ...]`.
The NaN→None rewrite before it is the identity here: `Cell.null` already
models both. -/
def dfRows (df : DataFrame) : List Row :=
  (List.range (dfRowCount df)).map (fun i => df.map (fun c => c.cells.getD i Cell.null))

/-- The shaped batch `upsert_curated` sends to the database. -/
def shapeRows (contract : DatasetContract) (df : DataFrame)
    (ingestionId sourceSha256 : String) (loadedAt : Int) : List Row :=
  dfRows (addLineage
    (coerceDatetimes contract.columns (projectCols contract (addMissing contract df)))
    ingestionId sourceSha256 loadedAt)

/-- The position of the declared primary key inside the row layout (its
index among the contract columns; the lineage columns come after). -/
def pkIndex (contract : DatasetContract) : Option Nat :=
  match contract.primaryKey with
  | none => none
  | some pk => (contract.columns.map Prod.fst).findIdx? (fun c => c = pk)

/-- The key cell of a row. -/
def keyOf (k : Nat) (r : Row) : Cell := r.getD k Cell.null

/-- `INSERT ... ON CONFLICT (pk) DO UPDATE SET <every non-key column> =
EXCLUDED...` for one row: a key conflict overwrites the whole conflicting
row (the key cell itself is equal on both sides), otherwise the row is
appended. -/
def upsertRow (k : Nat) (tbl : List Row) (r : Row) : List Row :=
  if tbl.any (fun r' => keyOf k r' == keyOf k r) then
    tbl.map (fun r' => if keyOf k r' == keyOf k r then r else r')
  else tbl ++ [r]

/-- `loaders.postgres.upsert_curated` against an explicit curated table
(the `CREATE TABLE`/`ADD COLUMN` evolution is presupposed by the fixed row
layout).  Returns the new table and the returned `len(rows)`. -/
def upsert_curated (contract : DatasetContract) (df : DataFrame)
    (ingestionId sourceSha256 : String) (loadedAt : Int) (tbl : List Row) :
    List Row × Nat :=
  if (shapeRows contract df ingestionId sourceSha256 loadedAt).isEmpty then
    (tbl, 0)
  else
    match pkIndex contract with
    | some k =>
        ((shapeRows contract df ingestionId sourceSha256 loadedAt).foldl
          (upsertRow k) tbl,
          (shapeRows contract df ingestionId sourceSha256 loadedAt).length)
    | none =>
        (tbl ++ shapeRows contract df ingestionId sourceSha256 loadedAt,
          (shapeRows contract df ingestionId sourceSha256 loadedAt).length)

theorem upsertRow_key_cases (k : Nat) (tbl : List Row) (r r' : Row)
    (hmem : r' ∈ upsertRow k tbl r) :
    r' = r ∨ (r' ∈ tbl ∧ keyOf k r' ≠ keyOf k r) := by
  unfold upsertRow at hmem
  by_cases hany : tbl.any (fun r'' => keyOf k r'' == keyOf k r)
  · rw [if_pos hany] at hmem
    obtain ⟨r₀, hr₀, heq⟩ := List.mem_map.mp hmem
    by_cases hk : keyOf k r₀ == keyOf k r
    · rw [if_pos hk] at heq
      exact Or.inl heq.symm
    · rw [if_neg hk] at heq
      refine Or.inr ⟨heq ▸ hr₀, ?_⟩
      rw [← heq]
      simpa using hk
  · rw [if_neg hany] at hmem
    rcases List.mem_append.mp hmem with h | h
    · refine Or.inr ⟨h, fun hk => ?_⟩
      rw [List.any_eq_true] at hany
      exact hany ⟨r', h, by simpa using hk⟩
    · simp at h
      exact Or.inl h

theorem upsertRow_key_exists (k : Nat) (tbl : List Row) (r : Row) :
    ∃ r' ∈ upsertRow k tbl r, keyOf k r' = keyOf k r := by
  unfold upsertRow
  by_cases hany : tbl.any (fun r'' => keyOf k r'' == keyOf k r)
  · rw [if_pos hany]
    obtain ⟨r₀, hr₀, hk⟩ := List.any_eq_true.mp hany
    exact ⟨r, List.mem_map.mpr ⟨r₀, hr₀, if_pos hk⟩, rfl⟩
  · rw [if_neg hany]
    exact ⟨r, by simp, rfl⟩

theorem upsertRow_preserves (k : Nat) (tbl : List Row) (r r₀ : Row)
    (hk : keyOf k r₀ ≠ keyOf k r)
    (hmem : ∃ r' ∈ tbl, keyOf k r' = keyOf k r₀)
    (hall : ∀ r' ∈ tbl, keyOf k r' = keyOf k r₀ → r' = r₀) :
    (∃ r' ∈ upsertRow k tbl r, keyOf k r' = keyOf k r₀) ∧
      (∀ r' ∈ upsertRow k tbl r, keyOf k r' = keyOf k r₀ → r' = r₀) := by
  constructor
  · obtain ⟨r', hr', hkey⟩ := hmem
    unfold upsertRow
    by_cases hany : tbl.any (fun r'' => keyOf k r'' == keyOf k r)
    · rw [if_pos hany]
      refine ⟨r', List.mem_map.mpr ⟨r', hr', ?_⟩, hkey⟩
      rw [if_neg (by rw [hkey]; simpa using hk)]
    · rw [if_neg hany]
      exact ⟨r', List.mem_append.mpr (Or.inl hr'), hkey⟩
  · intro r' hr' hkey
    rcases upsertRow_key_cases k tbl r r' hr' with h | ⟨h, -⟩
    · exfalso
      apply hk
      rw [← hkey, h]
    · exact hall r' h hkey

/-- After an upsert (and as long as no later row reuses its key), the
table holds the incoming row, and only it, under its key. -/
def keyInv (k : Nat) (tbl : List Row) (r : Row) : Prop :=
  (∃ r' ∈ tbl, keyOf k r' = keyOf k r) ∧
    (∀ r' ∈ tbl, keyOf k r' = keyOf k r → r' = r)

theorem keyInv_upsertRow_self (k : Nat) (tbl : List Row) (r : Row) :
    keyInv k (upsertRow k tbl r) r := by
  refine ⟨upsertRow_key_exists k tbl r, ?_⟩
  intro r' hr' hkey
  rcases upsertRow_key_cases k tbl r r' hr' with h | ⟨-, hne⟩
  · exact h
  · exact absurd hkey hne

theorem keyInv_upsertRow_other (k : Nat) (tbl : List Row) (r r₀ : Row)
    (hk : keyOf k r₀ ≠ keyOf k r) (hinv : keyInv k tbl r₀) :
    keyInv k (upsertRow k tbl r) r₀ :=
  upsertRow_preserves k tbl r r₀ hk hinv.1 hinv.2

theorem keyInv_foldl_other (k : Nat) (rows : List Row) (tbl : List Row)
    (r₀ : Row) (hk : ∀ r ∈ rows, keyOf k r ≠ keyOf k r₀)
    (hinv : keyInv k tbl r₀) :
    keyInv k (rows.foldl (upsertRow k) tbl) r₀ := by
  induction rows generalizing tbl with
  | nil => exact hinv
  | cons r rest ih =>
      exact ih _ (fun r' hr' => hk r' (List.mem_cons_of_mem _ hr'))
        (keyInv_upsertRow_other k tbl r r₀
          (fun hh => hk r (List.mem_cons_self _ _) hh.symm) hinv)

theorem keyInv_foldl (k : Nat) (rows : List Row) (tbl : List Row)
    (hdist : (rows.map (keyOf k)).Nodup) :
    ∀ r ∈ rows, keyInv k (rows.foldl (upsertRow k) tbl) r := by
  induction rows generalizing tbl with
  | nil => intro r hr; simp at hr
  | cons r₀ rest ih =>
      rw [List.map_cons, List.nodup_cons] at hdist
      intro r hr
      rcases List.mem_cons.mp hr with heq | hmem
      · subst heq
        exact keyInv_foldl_other k rest (upsertRow k tbl r) r
          (fun r' hr' hh => hdist.1
            (by rw [← hh]; exact List.mem_map_of_mem _ hr'))
          (keyInv_upsertRow_self k tbl r)
      · exact ih _ hdist.2 r hmem

theorem upsertRow_id (k : Nat) (tbl : List Row) (r : Row)
    (hinv : keyInv k tbl r) : upsertRow k tbl r = tbl := by
  unfold upsertRow
  obtain ⟨⟨r', hr', hkey⟩, hall⟩ := hinv
  rw [if_pos (List.any_eq_true.mpr ⟨r', hr', by simpa using hkey⟩)]
  have : ∀ r₀ ∈ tbl, (if keyOf k r₀ == keyOf k r then r else r₀) = id r₀ := by
    intro r₀ h₀
    by_cases hk : keyOf k r₀ == keyOf k r
    · rw [if_pos hk]
      exact (hall r₀ h₀ (by simpa using hk)).symm
    · rw [if_neg hk]
      rfl
  rw [List.map_congr_left this, List.map_id]

theorem foldl_fixed {α β : Type} (f : α → β → α) (T : α) (l : List β)
    (h : ∀ x ∈ l, f T x = T) : l.foldl f T = T := by
  induction l with
  | nil => rfl
  | cons x rest ih =>
      rw [List.foldl_cons, h x (List.mem_cons_self _ _)]
      exact ih (fun y hy => h y (List.mem_cons_of_mem _ hy))

/-- C4: with a declared primary key and a batch whose shaped rows carry
pairwise-distinct key values, upserting the identical batch twice (same
load timestamp) leaves exactly the table of a single upsert — no duplicate
rows; without a primary key, the second upsert appends the same rows
again, duplicating them. -/
theorem claim_C4 (contract : DatasetContract) (df : DataFrame)
    (ingestionId sourceSha256 : String) (loadedAt : Int) (tbl : List Row) :
    (∀ k, pkIndex contract = some k →
      ((shapeRows contract df ingestionId sourceSha256 loadedAt).map
        (keyOf k)).Nodup →
      upsert_curated contract df ingestionId sourceSha256 loadedAt
          (upsert_curated contract df ingestionId sourceSha256 loadedAt tbl).1 =
        ((upsert_curated contract df ingestionId sourceSha256 loadedAt tbl).1,
          (shapeRows contract df ingestionId sourceSha256 loadedAt).length))
    ∧ (contract.primaryKey = none →
      (upsert_curated contract df ingestionId sourceSha256 loadedAt
          (upsert_curated contract df ingestionId sourceSha256 loadedAt tbl).1).1 =
        tbl ++ shapeRows contract df ingestionId sourceSha256 loadedAt ++
          shapeRows contract df ingestionId sourceSha256 loadedAt) := by
  have heq_pk : ∀ (k : Nat) (T : List Row), pkIndex contract = some k →
      (shapeRows contract df ingestionId sourceSha256 loadedAt).isEmpty = false →
      upsert_curated contract df ingestionId sourceSha256 loadedAt T =
        ((shapeRows contract df ingestionId sourceSha256 loadedAt).foldl
          (upsertRow k) T,
          (shapeRows contract df ingestionId sourceSha256 loadedAt).length) := by
    intro k T hk hne
    unfold upsert_curated
    rw [if_neg (by rw [hne]; exact Bool.noConfusion), hk]
  have heq_nopk : ∀ (T : List Row), contract.primaryKey = none →
      (shapeRows contract df ingestionId sourceSha256 loadedAt).isEmpty = false →
      upsert_curated contract df ingestionId sourceSha256 loadedAt T =
        (T ++ shapeRows contract df ingestionId sourceSha256 loadedAt,
          (shapeRows contract df ingestionId sourceSha256 loadedAt).length) := by
    intro T hpk hne
    have hidx : pkIndex contract = none := by
      unfold pkIndex
      rw [hpk]
    unfold upsert_curated
    rw [if_neg (by rw [hne]; exact Bool.noConfusion), hidx]
  constructor
  · intro k hk hdist
    cases hrows : (shapeRows contract df ingestionId sourceSha256 loadedAt).isEmpty with
    | true =>
        have hlen : (shapeRows contract df ingestionId sourceSha256 loadedAt).length = 0 := by
          rw [List.isEmpty_iff] at hrows
          rw [hrows]
          rfl
        unfold upsert_curated
        rw [if_pos hrows, if_pos hrows, hlen]
    | false =>
        rw [heq_pk k tbl hk hrows,
          heq_pk k ((shapeRows contract df ingestionId sourceSha256
            loadedAt).foldl (upsertRow k) tbl) hk hrows]
        refine Prod.ext ?_ rfl
        show (shapeRows contract df ingestionId sourceSha256 loadedAt).foldl
          (upsertRow k) _ = _
        exact foldl_fixed (upsertRow k) _ _
          (fun r hr => upsertRow_id k _ r
            (keyInv_foldl k _ tbl hdist r hr))
  · intro hpk
    cases hrows : (shapeRows contract df ingestionId sourceSha256 loadedAt).isEmpty with
    | true =>
        have hnil : shapeRows contract df ingestionId sourceSha256 loadedAt = [] :=
          List.isEmpty_iff.mp hrows
        unfold upsert_curated
        rw [if_pos hrows, if_pos hrows, hnil]
        simp
    | false =>
        rw [heq_nopk tbl hpk hrows]
        rw [heq_nopk (tbl ++ shapeRows contract df ingestionId sourceSha256
          loadedAt) hpk hrows]

/-- C4 witness: a two-row keyed batch upserted twice into an empty table
equals a single upsert; the same batch without a primary key upserted
twice appends four rows. -/
theorem claim_C4_witness :
    (upsert_curated
        ⟨"d", some "id", [("id", ⟨"string", true, true, none, none⟩)], [], none⟩
        [⟨"id", .objectDt, [.s "a", .s "b"]⟩] "ing1" "sha1" 0
        (upsert_curated
          ⟨"d", some "id", [("id", ⟨"string", true, true, none, none⟩)], [], none⟩
          [⟨"id", .objectDt, [.s "a", .s "b"]⟩] "ing1" "sha1" 0 []).1 =
      ((upsert_curated
          ⟨"d", some "id", [("id", ⟨"string", true, true, none, none⟩)], [], none⟩
          [⟨"id", .objectDt, [.s "a", .s "b"]⟩] "ing1" "sha1" 0 []).1,
        (shapeRows
          ⟨"d", some "id", [("id", ⟨"string", true, true, none, none⟩)], [], none⟩
          [⟨"id", .objectDt, [.s "a", .s "b"]⟩] "ing1" "sha1" 0).length))
    ∧ ((upsert_curated
        ⟨"d", none, [("id", ⟨"string", true, true, none, none⟩)], [], none⟩
        [⟨"id", .objectDt, [.s "a", .s "b"]⟩] "ing1" "sha1" 0
        (upsert_curated
          ⟨"d", none, [("id", ⟨"string", true, true, none, none⟩)], [], none⟩
          [⟨"id", .objectDt, [.s "a", .s "b"]⟩] "ing1" "sha1" 0 []).1).1 =
      [] ++ shapeRows
          ⟨"d", none, [("id", ⟨"string", true, true, none, none⟩)], [], none⟩
          [⟨"id", .objectDt, [.s "a", .s "b"]⟩] "ing1" "sha1" 0 ++
        shapeRows
          ⟨"d", none, [("id", ⟨"string", true, true, none, none⟩)], [], none⟩
          [⟨"id", .objectDt, [.s "a", .s "b"]⟩] "ing1" "sha1" 0) := by
  constructor
  · exact (claim_C4
      ⟨"d", some "id", [("id", ⟨"string", true, true, none, none⟩)], [], none⟩
      [⟨"id", .objectDt, [.s "a", .s "b"]⟩] "ing1" "sha1" 0 []).1 0
      (by decide) (by decide)
  · exact (claim_C4
      ⟨"d", none, [("id", ⟨"string", true, true, none, none⟩)], [], none⟩
      [⟨"id", .objectDt, [.s "a", .s "b"]⟩] "ing1" "sha1" 0 []).2 rfl

/-! ## Orchestrator (`jobs.process_ingestion`) -/

/-- `contracts.load_contract_with_meta` result. -/
structure ContractMeta where
  contract : DatasetContract
  path : String
  sha256 : String
  deriving DecidableEq, Repr

/-- The `get_ingestion` row fields `process_ingestion` reads, plus the
claim-relevant ledger columns. -/
structure IngestionView where
  dataset : String
  source : Option String
  rawPath : String
  fileExt : String
  sha256 : String
  ledger : LedgerRow
  deriving DecidableEq, Repr

/-- The `load_info` dict of the success path. -/
structure LoadInfo where
  backend : String
  rowsLoaded : Nat
  table : String
  deriving DecidableEq, Repr

/-- The report dict passed to `insert_quality_report`.  The main-path
report carries contract/drift/quality fields; the exception-path report
carries only dataset/raw/sha and the exception message (its formatted
traceback is not modelled beyond the message). -/
structure Report where
  dataset : String
  source : Option String
  rawPath : String
  sha256 : String
  contractPath : Option String
  contractSha : Option String
  observedSchemaHash : Option String
  drift : Option DriftResult
  driftPolicy : Option String
  quality : Option QualityResult
  load : Option LoadInfo
  exception : Option String
  deriving DecidableEq, Repr

/-- The lineage artifact built by `_persist_lineage_artifact`. -/
structure Artifact where
  ingestionId : String
  dataset : String
  rawPath : String
  sha256 : String
  contractPath : Option String
  contractSha : Option String
  observedSchemaHash : Option String
  drift : Option DriftResult
  quality : Option QualityResult
  load : Option LoadInfo
  publishedEndpoints : List String
  deriving DecidableEq, Repr

/-- The endpoint list `_persist_lineage_artifact` publishes (a non-empty
dataset name appends the two dataset endpoints). -/
def publishedEndpoints (ingestionId dataset : String) : List String :=
  ["/api/meta", "/api/ingestions", "/api/ingestions/" ++ ingestionId,
    "/api/ingestions/" ++ ingestionId ++ "/preview"] ++
  (if dataset = "" then []
    else ["/api/datasets/" ++ dataset ++ "/curated/sample",
      "/api/datasets/" ++ dataset ++ "/schemas"])

/-- `jobs._persist_lineage_artifact`. -/
def artifactOf (ingestionId : String) (report : Report)
    (loadInfo : Option LoadInfo) : Artifact :=
  ⟨ingestionId, report.dataset, report.rawPath, report.sha256,
    report.contractPath, report.contractSha, report.observedSchemaHash,
    report.drift, report.quality, loadInfo,
    publishedEndpoints ingestionId report.dataset⟩

/-- One database/observability side effect of `process_ingestion`, in
program order.  Heartbeats and audits are best-effort in the source (their
failures are swallowed); they are recorded as succeeding. -/
inductive Effect
  | setStatus (status : Status) (error : Option String)
  | touch
  | audit (event : String)
  | upsertSchema (hash : String)
  | insertReport (passed : Bool) (report : Report)
  | upsertLineage (ingestionId : String) (artifact : Artifact)
  deriving DecidableEq, Repr

/-- The return value of `process_ingestion`, by exit path. -/
inductive ProcResult
  | notFound
  | skipped
  | attemptsExhausted
  | failedDrift
  | failedQuality
  | loaded (rowsLoaded : Nat)
  | exception (msg : String)
  deriving DecidableEq, Repr

/-- The explicit environment of one `process_ingestion` run: the results
of its external collaborators (ledger read, contract load, raw
materialize+decode), the relevant settings, the curated table and the
clock. -/
structure ProcEnv where
  ingestion : Option IngestionView
  contractLoad : Except String ContractMeta
  rawLoad : Except String DataFrame
  previousSchema : Option Schema
  driftPolicyDefault : String
  curatedBackend : String
  maxProcessingAttempts : Int
  curatedTable : List Row
  time : Int

/-- The exception-path report `{dataset, raw_path, sha256, exception,
traceback}`. -/
def excReport (dataset rawPath sha msg : String) : Report :=
  ⟨dataset, none, rawPath, sha, none, none, none, none, none, none, none,
    some msg⟩

/-- The `except Exception` block of `process_ingestion`: status first,
then audit, then best-effort report and lineage. -/
def exceptionExit (ingestionId : String) (base : List Effect)
    (dataset rawPath sha msg : String) : List Effect × ProcResult :=
  (base ++ [.setStatus .FAILED_EXCEPTION (some msg),
    .audit "ingestion.failed_exception",
    .insertReport false (excReport dataset rawPath sha msg),
    .upsertLineage ingestionId
      (artifactOf ingestionId (excReport dataset rawPath sha msg) none)],
    .exception msg)

/-- The main-path report dict (before the success path adds `load`). -/
def mainReport (env : ProcEnv) (ing : IngestionView) (cm : ContractMeta)
    (df : DataFrame) : Report :=
  ⟨ing.dataset, ing.source, ing.rawPath, ing.sha256, some cm.path,
    some cm.sha256, some (schemaHash (inferSchema df)),
    some (computeDrift env.previousSchema (inferSchema df)),
    some (cm.contract.driftPolicy.getD env.driftPolicyDefault),
    some (validate_df df cm.contract).1, none, none⟩

/-- The stages from schema inference to finalization (the part of
`process_ingestion` after a successful claim, contract load and decode).
`(contract.drift_policy or settings.drift_policy_default).lower()` is the
identity on the already-normalized policy values. -/
def processStages (env : ProcEnv) (ingestionId : String)
    (ing : IngestionView) (cm : ContractMeta) (df : DataFrame)
    (base : List Effect) : List Effect × ProcResult :=
  if (computeDrift env.previousSchema (inferSchema df)).breaking = true ∧
      cm.contract.driftPolicy.getD env.driftPolicyDefault = "fail" then
    (base ++ [.upsertSchema (schemaHash (inferSchema df)), .touch, .touch,
      .insertReport false (mainReport env ing cm df),
      .setStatus .FAILED_DRIFT (some "Schema drift policy=fail"),
      .audit "ingestion.failed_drift",
      .upsertLineage ingestionId
        (artifactOf ingestionId (mainReport env ing cm df) none)],
      .failedDrift)
  else if (validate_df df cm.contract).1.passed = false then
    (base ++ [.upsertSchema (schemaHash (inferSchema df)), .touch, .touch,
      .insertReport false (mainReport env ing cm df),
      .setStatus .FAILED_QUALITY (some "Quality gate failed"),
      .audit "ingestion.failed_quality",
      .upsertLineage ingestionId
        (artifactOf ingestionId (mainReport env ing cm df) none)],
      .failedQuality)
  else if ¬ env.curatedBackend = "postgres" then
    exceptionExit ingestionId
      (base ++ [.upsertSchema (schemaHash (inferSchema df)), .touch, .touch])
      ing.dataset ing.rawPath ing.sha256
      "Only CURATED_BACKEND=postgres is implemented in this reference repo. (BigQuery loading is intentionally left as an extension.)"
  else
    (base ++ [.upsertSchema (schemaHash (inferSchema df)), .touch, .touch,
      .touch,
      .insertReport true
        { mainReport env ing cm df with
            load := some ⟨"postgres",
              (upsert_curated cm.contract (validate_df df cm.contract).2
                ingestionId ing.sha256 env.time env.curatedTable).2,
              "curated_" ++ ing.dataset⟩ },
      .setStatus .LOADED none,
      .audit "ingestion.loaded",
      .upsertLineage ingestionId
        (artifactOf ingestionId
          { mainReport env ing cm df with
              load := some ⟨"postgres",
                (upsert_curated cm.contract (validate_df df cm.contract).2
                  ingestionId ing.sha256 env.time env.curatedTable).2,
                "curated_" ++ ing.dataset⟩ }
          (some ⟨"postgres",
            (upsert_curated cm.contract (validate_df df cm.contract).2
              ingestionId ing.sha256 env.time env.curatedTable).2,
            "curated_" ++ ing.dataset⟩))],
      .loaded (upsert_curated cm.contract (validate_df df cm.contract).2
        ingestionId ing.sha256 env.time env.curatedTable).2)

/-- `jobs.process_ingestion` as a pure function from its environment to
the ordered effect trace and the return value.  The curated load consumes
the batch as mutated in place by `validate_df` (the same `df` object). -/
def processIngestion (env : ProcEnv) (ingestionId : String) :
    List Effect × ProcResult :=
  match env.ingestion with
  | none => ([], .notFound)
  | some ing =>
      match (tryMarkProcessing env.maxProcessingAttempts env.time ing.ledger).2 with
      | .maxAttempts =>
          ([.setStatus .FAILED_MAX_ATTEMPTS
            (some "max_processing_attempts_exceeded")], .attemptsExhausted)
      | .skip => ([], .skipped)
      | .claimed =>
          match env.contractLoad with
          | .error e =>
              exceptionExit ingestionId
                [.setStatus .PROCESSING none, .touch,
                  .audit "ingestion.processing_started"]
                ing.dataset ing.rawPath ing.sha256 e
          | .ok cm =>
              match env.rawLoad with
              | .error e =>
                  exceptionExit ingestionId
                    [.setStatus .PROCESSING none, .touch,
                      .audit "ingestion.processing_started", .touch]
                    ing.dataset ing.rawPath ing.sha256 e
              | .ok df =>
                  processStages env ingestionId ing cm df
                    [.setStatus .PROCESSING none, .touch,
                      .audit "ingestion.processing_started", .touch, .touch,
                      .touch]

/-- The sequence of ledger status updates in an effect trace. -/
def statusTrace (effects : List Effect) : List Status :=
  effects.filterMap (fun e =>
    match e with
    | .setStatus s _ => some s
    | _ => none)

/-- C2 (amended): with a successfully claimed ingestion, loaded contract
and decoded batch, breaking drift under the resolved policy "fail" ends
the run `FAILED_DRIFT` before any quality gating — but the quality result
is computed and recorded in the persisted report (a `FAILED_QUALITY`
status never appears even when quality fails); under any other policy the
identical input proceeds to the quality gate, with the drift result
recorded in the report only. -/
theorem claim_C2 (env : ProcEnv) (ingestionId : String)
    (ing : IngestionView) (cm : ContractMeta) (df : DataFrame)
    (hing : env.ingestion = some ing)
    (hclaim : (tryMarkProcessing env.maxProcessingAttempts env.time
      ing.ledger).2 = .claimed)
    (hcm : env.contractLoad = .ok cm)
    (hdf : env.rawLoad = .ok df)
    (hbreak : (computeDrift env.previousSchema (inferSchema df)).breaking = true) :
    (cm.contract.driftPolicy.getD env.driftPolicyDefault = "fail" →
      (processIngestion env ingestionId).2 = .failedDrift ∧
      statusTrace (processIngestion env ingestionId).1 =
        [.PROCESSING, .FAILED_DRIFT] ∧
      Effect.insertReport false (mainReport env ing cm df) ∈
        (processIngestion env ingestionId).1 ∧
      (mainReport env ing cm df).quality = some (validate_df df cm.contract).1 ∧
      (mainReport env ing cm df).drift =
        some (computeDrift env.previousSchema (inferSchema df)) ∧
      Effect.upsertLineage ingestionId
          (artifactOf ingestionId (mainReport env ing cm df) none) ∈
        (processIngestion env ingestionId).1)
    ∧ (¬ cm.contract.driftPolicy.getD env.driftPolicyDefault = "fail" →
      ((validate_df df cm.contract).1.passed = false →
        (processIngestion env ingestionId).2 = .failedQuality ∧
        statusTrace (processIngestion env ingestionId).1 =
          [.PROCESSING, .FAILED_QUALITY]) ∧
      ((validate_df df cm.contract).1.passed = true →
        env.curatedBackend = "postgres" →
        (processIngestion env ingestionId).2 =
          .loaded (upsert_curated cm.contract (validate_df df cm.contract).2
            ingestionId ing.sha256 env.time env.curatedTable).2 ∧
        statusTrace (processIngestion env ingestionId).1 =
          [.PROCESSING, .LOADED])) := by
  have hmain : processIngestion env ingestionId =
      processStages env ingestionId ing cm df
        [.setStatus .PROCESSING none, .touch,
          .audit "ingestion.processing_started", .touch, .touch, .touch] := by
    simp only [processIngestion, hing, hclaim, hcm, hdf]
  constructor
  · intro hpol
    rw [hmain]
    unfold processStages
    rw [if_pos ⟨hbreak, hpol⟩]
    refine ⟨rfl, by simp [statusTrace], by simp, rfl, rfl, by simp⟩
  · intro hpol
    have hnot : ¬ ((computeDrift env.previousSchema (inferSchema df)).breaking
        = true ∧ cm.contract.driftPolicy.getD env.driftPolicyDefault = "fail") :=
      fun h => hpol h.2
    constructor
    · intro hq
      rw [hmain]
      unfold processStages
      rw [if_neg hnot, if_pos hq]
      exact ⟨rfl, by simp [statusTrace]⟩
    · intro hq hbackend
      rw [hmain]
      unfold processStages
      rw [if_neg hnot, if_neg (by rw [hq]; exact Bool.noConfusion),
        if_neg (fun h => h hbackend)]
      exact ⟨rfl, by simp [statusTrace]⟩

/-- The batch of the C2/C9 concrete scenario: one column `a`. -/
def c2df : DataFrame := [⟨"a", .objectDt, [.s "x"]⟩]

/-- The contract of the C2 concrete scenario: `a` optional, `b` required,
drift policy `fail`. -/
def c2contract : DatasetContract :=
  ⟨"d", none, [("a", ⟨"string", false, false, none, none⟩),
    ("b", ⟨"string", true, false, none, none⟩)], [], some "fail"⟩

def c2ing : IngestionView :=
  ⟨"d", none, "raw/d/x.csv", ".csv", "sha1", ⟨.RECEIVED, 0, none, none, none, none⟩⟩

def c2cm : ContractMeta := ⟨c2contract, "contracts/d.yaml", "csha"⟩

/-- The C2 concrete environment: the previous snapshot had columns
`{a, b}`, the new batch only `a` — breaking drift (removed `b`) — and the
batch also fails quality (required `b` missing). -/
def c2env : ProcEnv :=
  ⟨some c2ing, .ok c2cm, .ok c2df,
    some ⟨[⟨"a", "object", "string"⟩, ⟨"b", "object", "string"⟩], 2⟩,
    "warn", "postgres", 5, [], 0⟩

/-- C2 counterexample: on breaking drift with policy `fail`, the run ends
`FAILED_DRIFT` — but quality *was* evaluated for that ingestion: the
persisted drift-failure report embeds the computed quality result, whose
error list names the missing required column.  The claim's "quality is
never evaluated for that ingestion" is false on the code. -/
theorem claim_C2_counterexample :
    (processIngestion c2env "ing1").2 = .failedDrift
    ∧ statusTrace (processIngestion c2env "ing1").1 =
        [.PROCESSING, .FAILED_DRIFT]
    ∧ Effect.insertReport false (mainReport c2env c2ing c2cm c2df) ∈
        (processIngestion c2env "ing1").1
    ∧ (mainReport c2env c2ing c2cm c2df).quality =
        some (validate_df c2df c2contract).1
    ∧ (validate_df c2df c2contract).1.passed = false
    ∧ (validate_df c2df c2contract).1.errors =
        ["Missing required columns: " ++ pyReprStrList ["b"]] := by
  decide

/-- C2 witness: the amended theorem applied to the concrete breaking-drift
environment, discharging every hypothesis there. -/
theorem claim_C2_witness :
    (processIngestion c2env "ing2").2 = .failedDrift ∧
    statusTrace (processIngestion c2env "ing2").1 =
      [.PROCESSING, .FAILED_DRIFT] ∧
    Effect.insertReport false (mainReport c2env c2ing c2cm c2df) ∈
      (processIngestion c2env "ing2").1 ∧
    (mainReport c2env c2ing c2cm c2df).quality =
      some (validate_df c2df c2contract).1 ∧
    (mainReport c2env c2ing c2cm c2df).drift =
      some (computeDrift c2env.previousSchema (inferSchema c2df)) ∧
    Effect.upsertLineage "ing2"
        (artifactOf "ing2" (mainReport c2env c2ing c2cm c2df) none) ∈
      (processIngestion c2env "ing2").1 :=
  (claim_C2 c2env "ing2" c2ing c2cm c2df rfl (by decide) rfl rfl
    (by decide)).1 rfl

/-- C9: every stage-failure exit of `process_ingestion` — breaking drift
under policy `fail`, a failed quality gate, and any unexpected exception —
still persists a failing QualityReport and a LineageArtifact for the
ingestion, in addition to the terminal failure status. -/
theorem claim_C9 (env : ProcEnv) (ingestionId : String)
    (hfail : (processIngestion env ingestionId).2 = .failedDrift ∨
      (processIngestion env ingestionId).2 = .failedQuality ∨
      ∃ msg, (processIngestion env ingestionId).2 = .exception msg) :
    (∃ report, Effect.insertReport false report ∈
      (processIngestion env ingestionId).1) ∧
    ∃ artifact, Effect.upsertLineage ingestionId artifact ∈
      (processIngestion env ingestionId).1 := by
  cases hing : env.ingestion with
  | none =>
      have heq : processIngestion env ingestionId = ([], .notFound) := by
        simp [processIngestion, hing]
      rw [heq] at hfail
      simp at hfail
  | some ing =>
      cases hc : (tryMarkProcessing env.maxProcessingAttempts env.time
          ing.ledger).2 with
      | maxAttempts =>
          have heq : processIngestion env ingestionId =
              ([.setStatus .FAILED_MAX_ATTEMPTS
                (some "max_processing_attempts_exceeded")],
                .attemptsExhausted) := by
            simp [processIngestion, hing, hc]
          rw [heq] at hfail
          simp at hfail
      | skip =>
          have heq : processIngestion env ingestionId = ([], .skipped) := by
            simp [processIngestion, hing, hc]
          rw [heq] at hfail
          simp at hfail
      | claimed =>
          cases hcm : env.contractLoad with
          | error e =>
              have heq : processIngestion env ingestionId =
                  exceptionExit ingestionId
                    [.setStatus .PROCESSING none, .touch,
                      .audit "ingestion.processing_started"]
                    ing.dataset ing.rawPath ing.sha256 e := by
                simp [processIngestion, hing, hc, hcm]
              rw [heq]
              exact ⟨⟨excReport ing.dataset ing.rawPath ing.sha256 e,
                  by simp [exceptionExit]⟩,
                ⟨artifactOf ingestionId
                  (excReport ing.dataset ing.rawPath ing.sha256 e) none,
                  by simp [exceptionExit]⟩⟩
          | ok cm =>
              cases hdf : env.rawLoad with
              | error e =>
                  have heq : processIngestion env ingestionId =
                      exceptionExit ingestionId
                        [.setStatus .PROCESSING none, .touch,
                          .audit "ingestion.processing_started", .touch]
                        ing.dataset ing.rawPath ing.sha256 e := by
                    simp [processIngestion, hing, hc, hcm, hdf]
                  rw [heq]
                  exact ⟨⟨excReport ing.dataset ing.rawPath ing.sha256 e,
                      by simp [exceptionExit]⟩,
                    ⟨artifactOf ingestionId
                      (excReport ing.dataset ing.rawPath ing.sha256 e) none,
                      by simp [exceptionExit]⟩⟩
              | ok df =>
                  have heq : processIngestion env ingestionId =
                      processStages env ingestionId ing cm df
                        [.setStatus .PROCESSING none, .touch,
                          .audit "ingestion.processing_started", .touch,
                          .touch, .touch] := by
                    simp [processIngestion, hing, hc, hcm, hdf]
                  rw [heq] at hfail ⊢
                  unfold processStages at hfail ⊢
                  by_cases h1 : (computeDrift env.previousSchema
                      (inferSchema df)).breaking = true ∧
                      cm.contract.driftPolicy.getD env.driftPolicyDefault = "fail"
                  · rw [if_pos h1]
                    exact ⟨⟨mainReport env ing cm df, by simp⟩,
                      ⟨artifactOf ingestionId (mainReport env ing cm df) none,
                        by simp⟩⟩
                  · rw [if_neg h1] at hfail ⊢
                    by_cases h2 : (validate_df df cm.contract).1.passed = false
                    · rw [if_pos h2]
                      exact ⟨⟨mainReport env ing cm df, by simp⟩,
                        ⟨artifactOf ingestionId (mainReport env ing cm df) none,
                          by simp⟩⟩
                    · rw [if_neg h2] at hfail ⊢
                      by_cases h3 : ¬ env.curatedBackend = "postgres"
                      · rw [if_pos h3]
                        exact ⟨⟨excReport ing.dataset ing.rawPath ing.sha256
                            "Only CURATED_BACKEND=postgres is implemented in this reference repo. (BigQuery loading is intentionally left as an extension.)",
                            by simp [exceptionExit]⟩,
                          ⟨artifactOf ingestionId
                            (excReport ing.dataset ing.rawPath ing.sha256
                              "Only CURATED_BACKEND=postgres is implemented in this reference repo. (BigQuery loading is intentionally left as an extension.)")
                            none,
                            by simp [exceptionExit]⟩⟩
                      · rw [if_neg h3] at hfail
                        simp at hfail

/-- C9 witness: the concrete breaking-drift run persists a failing report
and a lineage artifact. -/
theorem claim_C9_witness :
    (∃ report, Effect.insertReport false report ∈
      (processIngestion c2env "ing3").1) ∧
    ∃ artifact, Effect.upsertLineage "ing3" artifact ∈
      (processIngestion c2env "ing3").1 :=
  claim_C9 c2env "ing3" (Or.inl (by decide))

end EventPulse
